import Mathlib

/-!
Verification of the repo-wiki core (agent loop, source verifier, tool
dispatch, indexer search) against its natural-language specification.

The TypeScript sources are shallowly embedded: strings are Lean `String`s
(JavaScript string operations such as `slice`, `split(/\s+/)`, `trim`,
`startsWith` are reproduced on `List Char`), filesystems are functions
from resolved absolute paths to optional file contents, the SQLite FTS
query is an oracle parameter returning the ranked rows that the prepared
statement would produce (the `LIMIT topK` clause is the explicit
`List.take`), and the LLM provider is a scripted sequence of replies
(one per `chat` call, which is how the sequential loop observes any
provider).  Wall-clock fields (`elapsedMs`, `totalMs`) are modelled as 0.
-/

namespace RepoWiki

/-! ## JavaScript string primitives -/

/-- Character class of the JavaScript regex `\s` (whitespace). -/
def jsWs (c : Char) : Bool :=
  c = ' ' || c = '\t' || c = '\n' || c = '\r' ||
  c = '\x0b' || c = '\x0c' || c = ' ' || c = ' ' ||
  (0x2000 ≤ c.toNat && c.toNat ≤ 0x200a) ||
  c = ' ' || c = ' ' || c = ' ' || c = ' ' ||
  c = '　' || c = '﻿'

/-- Boolean list-prefix test (JavaScript `String.prototype.startsWith`). -/
def listPrefix : List Char → List Char → Bool
  | [], _ => true
  | _ :: _, [] => false
  | a :: as, b :: bs => a = b && listPrefix as bs

/-- Boolean substring test (JavaScript `String.prototype.includes`). -/
def listContains : List Char → List Char → Bool
  | [], sub => listPrefix sub []
  | c :: cs, sub => listPrefix sub (c :: cs) || listContains cs sub

def jsStartsWith (s pre : String) : Bool := listPrefix pre.toList s.toList

def jsIncludes (s sub : String) : Bool := listContains s.toList sub.toList

/-- Normalise a JavaScript `slice` index against a length. -/
def jsIdx (i : Int) (len : Nat) : Nat :=
  if i < 0 then (len + i).toNat else min i.toNat len

/-- JavaScript `String.prototype.slice(a, b)`. -/
def jsSlice (s : String) (a b : Int) : String :=
  let cs := s.toList
  let lo := jsIdx a cs.length
  let hi := jsIdx b cs.length
  ⟨(cs.drop lo).take (hi - lo)⟩

/-- JavaScript `String.prototype.slice(a)` (one-argument form). -/
def jsSliceFrom (s : String) (a : Int) : String :=
  jsSlice s a (Int.ofNat s.toList.length)

/-- JavaScript `String.prototype.trim`. -/
def jsTrim (s : String) : String :=
  ⟨((s.toList.dropWhile jsWs).reverse.dropWhile jsWs).reverse⟩

/-- JavaScript `String.prototype.toLowerCase` (character-wise; kernel
reducible, unlike `String.toLower`). -/
def jsToLower (s : String) : String := ⟨s.toList.map Char.toLower⟩

/-- JavaScript `Array.prototype.join(sep)`. -/
def joinSep (sep : String) : List String → String
  | [] => ""
  | [x] => x
  | x :: xs => x ++ sep ++ joinSep sep xs

/-- Split on each occurrence of a separator character (JavaScript
`String.prototype.split(sep)` for one-character separators).  Always
returns at least one segment. -/
def splitSepChars (sep : Char) : List Char → List (List Char)
  | [] => [[]]
  | c :: cs =>
    if c = sep then [] :: splitSepChars sep cs
    else
      match splitSepChars sep cs with
      | [] => [[c]]
      | l :: ls => (c :: l) :: ls

/-- JavaScript `content.split('\n')`. -/
def jsSplitNl (s : String) : List String := (splitSepChars '\n' s.toList).map (⟨·⟩)

/-- Split on runs of whitespace (JavaScript `split(/\s+/)`): a leading or
trailing run contributes an empty segment, interior runs separate (only
the last character of a run, the one not followed by more whitespace,
closes a segment). -/
def splitWsChars : List Char → List (List Char)
  | [] => [[]]
  | c :: cs =>
    let r := splitWsChars cs
    if jsWs c then
      match cs with
      | d :: _ => if jsWs d then r else [] :: r
      | [] => [] :: r
    else
      match r with
      | [] => [[c]]
      | l :: ls => (c :: l) :: ls

def jsSplitWs (s : String) : List String := (splitWsChars s.toList).map (⟨·⟩)

/-! ## Path resolution (`node:path` on absolute POSIX paths)

`path.resolve` on an absolute path splits on `/`, drops empty and `.`
segments, and lets `..` pop the previous segment (staying at the root
when there is none).  Repository roots are taken to be already-resolved
absolute paths. -/

def normSegs : List String → List String → List String
  | [], stack => stack.reverse
  | s :: rest, stack =>
    if s = "" || s = "." then normSegs rest stack
    else if s = ".." then normSegs rest stack.tail
    else normSegs rest (s :: stack)

/-- Canonicalize an absolute path string. -/
def resolveAbs (p : String) : String :=
  "/" ++ joinSep "/" (normSegs ((splitSepChars '/' p.toList).map (⟨·⟩)) [])

/-- The resolved absolute path of `path.resolve(path.join(root, rel))`. -/
def resolveJoin (root rel : String) : String := resolveAbs (root ++ "/" ++ rel)

/-- Genuine filesystem containment: `p` is `root` itself or lies strictly
below it (a `/`-separated descendant). -/
def isDescendant (root p : String) : Bool :=
  p = root || jsStartsWith p (root ++ "/")

/-- A filesystem: resolved absolute path to file contents, if the file
exists. -/
def Fs : Type := String → Option String

/-! ## Data model (`types.ts`, `loop-types.ts`) -/

/-- A citation: `{ path, startLine, endLine }` (`types.ts`, `Source`). -/
structure Source where
  path : String
  startLine : Nat
  endLine : Nat
  deriving Repr, DecidableEq

/-- `VerificationResult` of `verifier.ts`. -/
structure VerificationResult where
  valid : Bool
  errors : List String
  deriving Repr, DecidableEq

/-! ## Source verifier (`agent/verifier.ts`) -/

/-- The error list that `verifySources` accumulates for one source
(`continue` after the first error of a structural check; the line-range
check can contribute two errors). -/
def checkSource (fs : Fs) (repoPath : String) (source : Source) : List String :=
  if source.path = "" then ["Source missing path"]
  else if source.startLine < 1 then
    ["Source " ++ source.path ++ ": startLine must be >= 1"]
  else if source.endLine < source.startLine then
    ["Source " ++ source.path ++ ": endLine must be >= startLine"]
  else
    let resolvedPath := resolveJoin repoPath source.path
    if !(jsStartsWith resolvedPath (resolveAbs repoPath)) then
      ["Source " ++ source.path ++ ": path outside repository"]
    else
      match fs resolvedPath with
      | none => ["Source " ++ source.path ++ ": file does not exist"]
      | some content =>
        let lineCount := (jsSplitNl content).length
        (if lineCount < source.startLine then
          ["Source " ++ source.path ++ ": startLine " ++ toString source.startLine ++
            " exceeds file length " ++ toString lineCount]
         else []) ++
        (if lineCount < source.endLine then
          ["Source " ++ source.path ++ ": endLine " ++ toString source.endLine ++
            " exceeds file length " ++ toString lineCount]
         else [])

/-- `verifySources(sources, config)` from `agent/verifier.ts`. -/
def verifySources (fs : Fs) (repoPath : String) (sources : List Source) :
    VerificationResult :=
  if sources.isEmpty then
    { valid := false
      errors := ["No sources provided. Every answer MUST include at least one source with path and line range."] }
  else
    let errors := (sources.map (checkSource fs repoPath)).flatten
    { valid := errors.isEmpty, errors := errors }

/-- `formatSources(sources)` from `agent/verifier.ts`: renders
`- path:start-end` lines (no backticks, no header). -/
def formatSources (sources : List Source) : String :=
  if sources.isEmpty then "No sources"
  else
    joinSep "\n"
      (sources.map fun s =>
        "- " ++ s.path ++ ":" ++ toString s.startLine ++ "-" ++ toString s.endLine)

/-! ## Citation extraction from markdown

The TypeScript uses two regexes: `/##\s*Sources\s*\n([\s\S]*?)(?:\n##|$)/i`
to locate the Sources section (leftmost match; the greedy `\s*` before the
`\n` makes the capture start after the last newline of the whitespace run,
and the lazy capture ends before the first `\n##` or at end of input) and
the global pattern `` /[-*]\s*`([^`]+)`\s*:\s*(\d+)\s*-\s*(\d+)/g `` for
the citation lines.  Both are reproduced here as explicit scanners. -/

def backtickChar : Char := Char.ofNat 96

def digitsToNat (ds : List Char) : Nat :=
  ds.foldl (fun a c => a * 10 + (c.toNat - '0'.toNat)) 0

/-- Try to match `##\s*Sources\s*\n` at the head of the list; on success
return the suffix where the capture group starts. -/
def matchHeaderAt : List Char → Option (List Char)
  | c1 :: c2 :: rest =>
    if c1 = '#' && c2 = '#' then
      let rest1 := rest.dropWhile jsWs
      if (rest1.take 7).map Char.toLower = "sources".toList then
        let rest2 := rest1.drop 7
        let run := rest2.takeWhile jsWs
        match run.reverse.findIdx? (· = '\n') with
        | some j => some (rest2.drop (run.length - j))
        | none => none
      else none
    else none
  | _ => none

/-- Leftmost position where the Sources header matches. -/
def findSectionGo : List Char → Option (List Char)
  | [] => none
  | c :: cs =>
    match matchHeaderAt (c :: cs) with
    | some cap => some cap
    | none => findSectionGo cs

/-- The lazy capture stops before the first `\n##` (or takes everything). -/
def takeUntilNlHH : List Char → List Char
  | [] => []
  | c :: cs =>
    if c = '\n' && listPrefix ['#', '#'] cs then []
    else c :: takeUntilNlHH cs

/-- The captured Sources-section text of a markdown answer, if any. -/
def findSourcesSection (s : String) : Option String :=
  (findSectionGo s.toList).map fun cap => ⟨takeUntilNlHH cap⟩

/-- Match one citation `[-*]\s*`path`\s*:\s*d+\s*-\s*d+` at the head of the
list; on success return `(path, start, end)` and the unconsumed suffix. -/
def matchCiteAt : List Char → Option ((String × Nat × Nat) × List Char)
  | [] => none
  | c :: rest =>
    if c = '-' || c = '*' then
      match rest.dropWhile jsWs with
      | [] => none
      | b1 :: r2 =>
        if b1 = backtickChar then
          let pathChars := r2.takeWhile (· ≠ backtickChar)
          if pathChars.isEmpty then none
          else
            match r2.drop pathChars.length with
            | [] => none
            | b2 :: r4 =>
              if b2 = backtickChar then
                match r4.dropWhile jsWs with
                | [] => none
                | col :: r6 =>
                  if col = ':' then
                    let r7 := r6.dropWhile jsWs
                    let d1 := r7.takeWhile Char.isDigit
                    if d1.isEmpty then none
                    else
                      match (r7.drop d1.length).dropWhile jsWs with
                      | [] => none
                      | dash :: r10 =>
                        if dash = '-' then
                          let r11 := r10.dropWhile jsWs
                          let d2 := r11.takeWhile Char.isDigit
                          if d2.isEmpty then none
                          else
                            some ((⟨pathChars⟩, digitsToNat d1, digitsToNat d2),
                              r11.drop d2.length)
                        else none
                  else none
              else none
        else none
    else none

/-- Repeated global matching of the citation pattern (non-overlapping,
resuming after each match, advancing one position on failure). -/
def scanCitationsGo : Nat → List Char → List (String × Nat × Nat)
  | 0, _ => []
  | _ + 1, [] => []
  | fuel + 1, c :: cs =>
    match matchCiteAt (c :: cs) with
    | some (cite, rest) => cite :: scanCitationsGo fuel rest
    | none => scanCitationsGo fuel cs

def scanCitations (s : String) : List (String × Nat × Nat) :=
  scanCitationsGo (s.toList.length + 1) s.toList

/-- `parseSourcesFromMarkdown(answerMd)` from `agent/verifier.ts`. -/
def parseSourcesFromMarkdown (answerMd : String) : List Source :=
  match findSourcesSection answerMd with
  | none => []
  | some sec => (scanCitations sec).map fun c => ⟨c.1, c.2.1, c.2.2⟩

/-- `SourceVerificationResult` of `loop-types.ts`. -/
structure SourceVerificationResult where
  valid : Bool
  sources : List Source
  errors : List String
  deriving Repr, DecidableEq

/-- `verifySourcesInAnswer(answerMd, repoRoot)` from the agent loop
(`loop.ts`).  Note that it never consults the filesystem: the `repoRoot`
argument is unused in the source ("File existence check is optional for
now"). -/
def verifySourcesInAnswer (answerMd : String) (_repoRoot : String) :
    SourceVerificationResult :=
  match findSourcesSection answerMd with
  | none =>
    { valid := false, sources := []
      errors := ["Missing \"## Sources\" section in answer"] }
  | some sec =>
    let cites := scanCitations sec
    let badCite := fun (c : String × Nat × Nat) => c.2.1 < 1 || c.2.2 < c.2.1
    let sources := (cites.filter fun c => !badCite c).map fun c => Source.mk c.1 c.2.1 c.2.2
    let errors :=
      if cites.isEmpty then
        ["No valid sources found. Format must be: - `path/to/file`:startLine-endLine"]
      else
        (cites.filter badCite).map fun c =>
          "Invalid line range for " ++ c.1 ++ ": " ++ toString c.2.1 ++ "-" ++ toString c.2.2
    { valid := errors.isEmpty && !sources.isEmpty
      sources := sources
      errors := errors }

/-! ## Tool results and `get_excerpt` (`tools/implementations.ts`) -/

/-- `ToolResult<T>` of `tools/types.ts` (shape as constructed throughout
`implementations.ts` and `registry.ts`). -/
structure ToolResult (α : Type) where
  success : Bool
  data : α
  outputSummary : String
  error : Option String := none
  deriving Repr, DecidableEq

/-- Arguments of `get_excerpt` (after schema validation). -/
structure GetExcerptArgs where
  path : String
  startLine : Nat
  endLine : Nat
  deriving Repr, DecidableEq

/-- `ExcerptResult` of `tools/types.ts`. -/
structure ExcerptResult where
  path : String
  startLine : Nat
  endLine : Nat
  content : String
  totalLines : Nat
  deriving Repr, DecidableEq

/-- `excerpt.map((line, i) => `${safeStart + i}: ${line}`)`. -/
def numberLines (start : Nat) : List String → List String
  | [] => []
  | l :: ls => (toString start ++ ": " ++ l) :: numberLines (start + 1) ls

/-- `getExcerpt(args, context)` from `tools/implementations.ts`. -/
def getExcerpt (fs : Fs) (repoPath : String) (args : GetExcerptArgs) :
    ToolResult ExcerptResult :=
  let resolvedPath := resolveJoin repoPath args.path
  if !(jsStartsWith resolvedPath (resolveAbs repoPath)) then
    { success := false
      data := ⟨args.path, args.startLine, args.endLine, "", 0⟩
      outputSummary := "Access denied: path outside repository"
      error := some "Path outside repository" }
  else
    match fs resolvedPath with
    | none =>
      { success := false
        data := ⟨args.path, args.startLine, args.endLine, "", 0⟩
        outputSummary := "File not found: " ++ args.path
        error := some "File not found" }
    | some content =>
      let lines := jsSplitNl content
      let totalLines := lines.length
      let safeStart := max 1 (min args.startLine totalLines)
      let safeEnd := max safeStart (min args.endLine totalLines)
      let excerpt := (lines.drop (safeStart - 1)).take (safeEnd - (safeStart - 1))
      let numberedContent := joinSep "\n" (numberLines safeStart excerpt)
      { success := true
        data := ⟨args.path, safeStart, safeEnd, numberedContent, totalLines⟩
        outputSummary :=
          "File: " ++ args.path ++ " (lines " ++ toString safeStart ++ "-" ++
          toString safeEnd ++ " of " ++ toString totalLines ++ ")\n\n" ++ numberedContent }

/-! ## Tool registry (`tools/registry.ts`)

`ToolRegistry.executeToolCall` deserializes string arguments with the
platform `JSON.parse` (an oracle parameter here), validates them against
the tool's Zod schema (`validate`), and runs the handler, catching any
exception (`Except.error`). -/

inductive Json where
  | null
  | bool (b : Bool)
  | num (n : Int)
  | str (s : String)
  | arr (xs : List Json)
  | obj (fields : List (String × Json))
  deriving Repr

/-- One Zod validation issue (`validation.error.errors[i]`). -/
structure ZodIssue where
  path : List String
  message : String
  deriving Repr

/-- A registered tool (`ToolDefinition` of `registry.ts`): the Zod schema
is its `safeParse` function, the handler may throw. -/
structure ToolDef where
  name : String
  validate : Json → Except (List ZodIssue) Json
  handler : Json → Except String (ToolResult Json)

/-- `Map` lookup over the registered tools. -/
def lookupTool : List ToolDef → String → Option ToolDef
  | [], _ => none
  | t :: ts, n => if t.name = n then some t else lookupTool ts n

/-- `ToolRegistry.getToolNames()`. -/
def getToolNames (reg : List ToolDef) : List String := reg.map (·.name)

/-- The `argsJson: string | Record<string, unknown>` union. -/
inductive ArgsPayload where
  | str (s : String)
  | obj (j : Json)

/-- `args = typeof argsJson === 'string' ? JSON.parse(argsJson) : argsJson`. -/
def parseArgsPayload (jsonParse : String → Except String Json) :
    ArgsPayload → Except String Json
  | .str s => jsonParse s
  | .obj j => Except.ok j

/-- `ToolRegistry.executeToolCall(name, argsJson)` from `tools/registry.ts`. -/
def executeToolCall (jsonParse : String → Except String Json) (reg : List ToolDef)
    (name : String) (argsJson : ArgsPayload) : ToolResult Json :=
  match lookupTool reg name with
  | none =>
    { success := false
      data := .null
      outputSummary := "Unknown tool: \"" ++ name ++ "\". Available tools: " ++
        joinSep ", " (getToolNames reg)
      error := some ("Unknown tool: " ++ name) }
  | some tool =>
    match parseArgsPayload jsonParse argsJson with
    | .error e =>
      { success := false
        data := .null
        outputSummary := "Failed to parse arguments: " ++ e
        error := some "Invalid JSON arguments" }
    | .ok args =>
      match tool.validate args with
      | .error issues =>
        let errs :=
          joinSep "; " (issues.map fun i => joinSep "." i.path ++ ": " ++ i.message)
        { success := false
          data := .null
          outputSummary := "Invalid arguments for \"" ++ name ++ "\": " ++ errs
          error := some ("Validation failed: " ++ errs) }
      | .ok validated =>
        match tool.handler validated with
        | .error e =>
          { success := false
            data := .null
            outputSummary := "Tool execution failed: " ++ e
            error := some e }
        | .ok r => r

/-! ## Indexer search (`indexer/index.ts`)

The FTS5 prepared statement (`SELECT … WHERE files_fts MATCH ? ORDER BY
score LIMIT ?`) is modelled by an oracle `fts` returning the ranked rows
for the sanitized query; the `LIMIT topK` is `List.take topK`. -/

structure FtsRow where
  path : String
  content : String
  score : Int
  deriving Repr, DecidableEq

/-- `SearchResult` of `types.ts` (its `score` is `Math.abs(raw)`). -/
structure SearchResult where
  path : String
  score : Nat
  snippet : String
  startLine : Nat
  endLine : Nat
  deriving Repr, DecidableEq

/-- Per-line score of `findBestMatchLine`: the number of query terms the
case-folded line contains. -/
def lineScore (terms : List String) (line : String) : Nat :=
  (terms.filter fun t => jsIncludes (jsToLower line) t).length

/-- The `(bestLine, bestScore)` loop state of `findBestMatchLine`
(strict improvement, so the earliest line with the top score wins). -/
def goPair (terms : List String) : List String → Nat → Nat → Nat → Nat × Nat
  | [], _, bestLine, bestScore => (bestLine, bestScore)
  | l :: ls, i, bestLine, bestScore =>
    let sc := lineScore terms l
    if sc > bestScore then goPair terms ls (i + 1) (i + 1) sc
    else goPair terms ls (i + 1) bestLine bestScore

/-- `Indexer.findBestMatchLine(lines, query)`. -/
def findBestMatchLine (lines : List String) (query : String) : Nat :=
  (goPair (jsSplitWs (jsToLower query)) lines 0 1 0).1

/-- Query sanitization of `Indexer.search`: strip quote characters,
split on whitespace, drop empty tokens, quote and OR-join. -/
def sanitizeQuery (query : String) : String :=
  let cleaned : String := ⟨query.toList.filter fun c => !(c = '\'' || c = '"')⟩
  let terms := ((jsSplitWs cleaned).filter fun t => t.length > 0).map
    fun t => "\"" ++ t ++ "\""
  joinSep " OR " terms

namespace Indexer

/-- `Indexer.search(query, topK)` from `indexer/index.ts`. -/
def search (fts : String → List FtsRow) (query : String) (topK : Nat) :
    List SearchResult :=
  let sanitizedQuery := sanitizeQuery query
  if sanitizedQuery = "" then []
  else
    ((fts sanitizedQuery).take topK).map fun row =>
      let lines := jsSplitNl row.content
      let matchIndex := findBestMatchLine lines query
      let startLine := max 1 (matchIndex - 5)
      let endLine := min lines.length (matchIndex + 15)
      { path := row.path
        score := row.score.natAbs
        snippet := joinSep "\n" ((lines.drop (startLine - 1)).take (endLine - (startLine - 1)))
        startLine := startLine
        endLine := endLine }

end Indexer

/-! ## Agent loop (`agent/loop.ts`, `agent/prompt.ts`)

The loop is a sequential state machine.  The LLM provider is modelled as
a script `Nat → Except String ChatReply`: the reply (or thrown error) of
the n-th `chat` call — a sequential loop can observe any provider only
through this sequence.  The tool registry enters as the function
`exec : name → argsJson → ToolResult` (its `executeToolCall` method,
which never throws).  Two ghost trace fields, `requests` (every `chat`
request with the tool list it carried) and `toolExecs` (every executed
tool invocation with its step number), record the interactions; the
TypeScript state is embedded unchanged otherwise. -/

/-- `ToolCallResult` of `llm/types.ts`. -/
structure ToolCallResult where
  id : String
  name : String
  argumentsJson : String
  deriving Repr, DecidableEq

/-- `ChatResponse` of `llm/types.ts` (fields the loop reads). -/
structure ChatReply where
  assistantText : Option String := none
  toolCalls : Option (List ToolCallResult) := none
  deriving Repr, DecidableEq

/-- A scripted provider: the outcome of each successive `chat` call. -/
def Script : Type := Nat → Except String ChatReply

/-- The registry execution function the loop calls
(`toolRegistry.executeToolCall`). -/
def ExecFn : Type := String → String → ToolResult Json

inductive Role where
  | system
  | user
  | assistant
  | tool
  deriving Repr, DecidableEq

/-- `ContextMessage` of `loop-types.ts`. -/
structure ContextMessage where
  role : Role
  content : String
  toolCallId : Option String := none
  toolCalls : List ToolCallResult := []
  deriving Repr, DecidableEq

/-- `StepLog` of `loop-types.ts` (`elapsedMs` modelled as 0). -/
structure StepLog where
  stepNo : Nat
  toolName : Option String := none
  toolInput : Option String := none
  toolOutputSummary : Option String := none
  elapsedMs : Nat := 0
  modelMessageSummary : String
  isDone : Bool
  verifierPassed : Option Bool := none
  verifierErrors : Option (List String) := none
  deriving Repr, DecidableEq

/-- Ghost trace entry: one `chat` request and the tool list sent with it. -/
structure ChatRequest where
  messages : List ContextMessage
  tools : List String
  deriving Repr, DecidableEq

/-- Ghost trace entry: one executed tool invocation. -/
structure ToolExec where
  stepNo : Nat
  name : String
  argsJson : String
  deriving Repr, DecidableEq

/-- `AgentLoopConfig` with the `DEFAULT_AGENT_LOOP_CONFIG` defaults
already applied. -/
structure AgentLoopConfig where
  repoRoot : String
  question : String
  maxSteps : Nat := 8
  maxExcerptLines : Nat := 120
  maxToolOutputChars : Nat := 8000
  deriving Repr

/-- `AgentLoopResult` (`totalMs` modelled as 0) plus the ghost traces. -/
structure AgentLoopResult where
  answerMd : String
  steps : List StepLog
  sources : List Source
  verified : Bool
  totalMs : Nat := 0
  error : Option String
  requests : List ChatRequest
  toolExecs : List ToolExec
  deriving Repr

/-- The five built-in tools of `tools/registry.ts` (name, description). -/
def builtinTools : List (String × String) :=
  [("search_chunks", "Search indexed code chunks for relevant content. Returns matching code snippets with file paths and line numbers."),
   ("get_excerpt", "Get a specific excerpt from a file by line range. Returns the content with line numbers."),
   ("graph_neighbors", "Find related code elements (imports, exports, dependencies) for a given file or symbol."),
   ("list_files", "List files in the repository matching a glob pattern (e.g., \"**/*.ts\", \"src/**/*.py\")."),
   ("get_repo_summary", "Get an overview of the repository including file count, languages, and structure.")]

def loopToolNames : List String := builtinTools.map (·.1)

/-- `formatToolDescriptions` from `agent/prompt.ts`. -/
def formatToolDescriptions (tools : List (String × String)) : String :=
  joinSep "\n" (tools.map fun t => "- **" ++ t.1 ++ "**: " ++ t.2)

/-- `generateSystemPrompt` from `agent/prompt.ts`. -/
def generateSystemPrompt (maxSteps maxExcerptLines : Nat) (toolDescriptions : String) :
    String :=
  "You are RepoWiki, an AI assistant that answers questions about code repositories.\nYou MUST provide evidence-based answers by examining actual code using the available tools.\n\n## Available Tools\n" ++
  toolDescriptions ++
  "\n\n## Core Rules\n\n1. **ALWAYS use tools first** - Never answer from memory. Search and read code to gather evidence.\n2. **Evidence-based answers** - Every claim must be backed by specific code you examined.\n3. **Maximum " ++
  toString maxSteps ++
  " steps** - Plan efficiently. Each tool call is one step.\n4. **Excerpt limit** - Each file excerpt is limited to " ++
  toString maxExcerptLines ++
  " lines.\n\n## Response Format\n\nYou MUST respond in exactly ONE of these two formats:\n\n### Format A: Tool Call (to gather more information)\nSimply make tool calls using the function calling interface. The tool results will be provided back to you.\n\n### Format B: Final Answer (when you have enough evidence)\nWhen ready to answer, respond with EXACTLY this format:\n\n```\nDONE\n\n<your answer in markdown>\n\n## Sources\n- `path/to/file.ts`:10-25\n- `path/to/another.ts`:100-150\n```\n\n## Sources Section Requirements (CRITICAL)\n\nYour final answer MUST include a \"## Sources\" section with:\n- At least ONE source\n- Each source in format: `- \\`file/path\\`:startLine-endLine`\n- Sources must reference files and lines you actually examined\n- WITHOUT valid sources, your answer will be REJECTED and you must try again\n\n## Workflow\n\n1. Understand the question\n2. Use `search_chunks` to find relevant code\n3. Use `get_excerpt` to read specific sections\n4. Use `list_files` or `graph_neighbors` if needed\n5. When you have enough evidence, respond with DONE + answer + Sources\n\n## Example Final Answer\n\n```\nDONE\n\nThe `Agent` class implements the main orchestration loop. It:\n\n1. Initializes the LLM client and indexer in the constructor\n2. The `run()` method executes the agent loop:\n   - Sends messages to LLM\n   - Processes tool calls\n   - Validates sources with verifier\n\nThe maximum steps is configurable via `AgentConfig.maxSteps`.\n\n## Sources\n- `packages/core/src/agent/index.ts`:15-45\n- `packages/core/src/types.ts`:10-25\n```\n\nRemember: No sources = rejected answer. Always cite your evidence!"

/-- `generateRepairPrompt` from `agent/prompt.ts`. -/
def generateRepairPrompt (errors : List String) : String :=
  "Your answer was REJECTED because it lacks proper source citations.\n\nErrors:\n" ++
  joinSep "\n" (errors.map fun e => "- " ++ e) ++
  "\n\nYou MUST:\n1. Use tools to find and examine relevant code\n2. Provide a new answer with a proper \"## Sources\" section\n3. Each source must be in format: `- \\`file/path\\`:startLine-endLine`\n\nUse search_chunks or get_excerpt to gather evidence, then provide your answer with DONE."

/-- `generateForcedTerminationPrompt` from `agent/prompt.ts`. -/
def generateForcedTerminationPrompt (stepCount : Nat) (gatheredEvidence : List String) :
    String :=
  "Maximum steps (" ++ toString stepCount ++
  ") reached. You must provide your best answer NOW with the evidence gathered.\n\nEvidence gathered so far:\n" ++
  (if gatheredEvidence.length > 0 then joinSep "\n" gatheredEvidence
   else "(No evidence gathered)") ++
  "\n\nRespond with DONE + your best answer based on available evidence.\nIf you have any sources from your examination, include them in the ## Sources section.\nIf you have no sources, explain that the question could not be fully answered due to step limit."

/-- `truncateOutput(output, maxChars)` from `agent/loop.ts`. -/
def truncateOutput (output : String) (maxChars : Nat) : String :=
  if output.toList.length ≤ maxChars then output
  else
    let halfLimit : Int := Int.ofNat maxChars / 2 - 50
    let head := jsSlice output 0 halfLimit
    let tail := jsSliceFrom output (-halfLimit)
    head ++ "\n\n... [" ++ toString (output.toList.length - maxChars) ++
      " characters truncated] ...\n\n" ++ tail

inductive PType where
  | toolCallsT
  | doneT
  | errorT
  deriving Repr, DecidableEq

/-- `ParsedLLMResponse` of `loop-types.ts`. -/
structure ParsedLLMResponse where
  type : PType
  toolCalls : Option (List ToolCallResult) := none
  answerMd : Option String := none
  rawContent : Option String := none
  error : Option String := none
  deriving Repr, DecidableEq

/-- The capture of `/^DONE\s*\n([\s\S]*)/i` followed by `.trim()`:
after a case-insensitive `DONE` prefix, the greedy `\s*` backtracks to
the last newline of the following whitespace run. -/
def doneCapture (content : String) : Option String :=
  let cs := content.toList
  if (cs.take 4).map Char.toLower = "done".toList then
    let rest := cs.drop 4
    let run := rest.takeWhile jsWs
    match run.reverse.findIdx? (· = '\n') with
    | some j => some (jsTrim ⟨rest.drop (run.length - j)⟩)
    | none => none
  else none

/-- Content classification of `parseResponse` when no tool calls fired. -/
def parseContentPart (content : Option String) : ParsedLLMResponse :=
  let errorResp : ParsedLLMResponse :=
    { type := .errorT, rawContent := content
      error := some "LLM response was neither a tool call nor a valid DONE answer" }
  match content with
  | none => errorResp
  | some c =>
    if c = "" then errorResp
    else
      match doneCapture c with
      | some a => { type := .doneT, answerMd := some a, rawContent := some c }
      | none =>
        if jsIncludes c "## Sources" && jsIncludes c "`" then
          { type := .doneT, answerMd := some c, rawContent := some c }
        else errorResp

/-- `parseResponse(content, toolCalls)` from `agent/loop.ts`. -/
def parseResponse (content : Option String) (toolCalls : Option (List ToolCallResult)) :
    ParsedLLMResponse :=
  match toolCalls with
  | some tcs =>
    if tcs.length > 0 then
      { type := .toolCallsT, toolCalls := some tcs, rawContent := content }
    else parseContentPart content
  | none => parseContentPart content

/-- The mutable locals of `runAgent` plus the ghost traces. -/
structure LoopState where
  messages : List ContextMessage
  steps : List StepLog
  gatheredEvidence : List String
  currentStep : Nat
  callIdx : Nat
  finalAnswer : Option String
  verified : Bool
  verifiedSources : List Source
  error : Option String
  requests : List ChatRequest
  toolExecs : List ToolExec
  deriving Repr

/-- The `for (const toolCall of parsed.toolCalls)` body. -/
def execToolCalls (exec : ExecFn) (maxToolOutputChars : Nat) (stepNo : Nat) :
    LoopState → List ToolCallResult → LoopState
  | st, [] => st
  | st, tc :: tcs =>
    let toolResult := exec tc.name tc.argumentsJson
    let truncatedOutput := truncateOutput toolResult.outputSummary maxToolOutputChars
    let st :=
      { st with
        gatheredEvidence := st.gatheredEvidence ++
          (if toolResult.success then
            ["[" ++ tc.name ++ "] " ++ jsSlice truncatedOutput 0 200 ++ "..."]
           else [])
        messages := st.messages ++
          [{ role := .tool, content := truncatedOutput, toolCallId := some tc.id }]
        steps := st.steps ++
          [{ stepNo := stepNo, toolName := some tc.name, toolInput := some tc.argumentsJson
             toolOutputSummary := some (jsSlice truncatedOutput 0 500)
             modelMessageSummary := "Called " ++ tc.name, isDone := false }]
        toolExecs := st.toolExecs ++ [⟨stepNo, tc.name, tc.argumentsJson⟩] }
    execToolCalls exec maxToolOutputChars stepNo st tcs

/-- Response dispatch inside one loop iteration (`error` break, tool
calls, DONE with verification/repair, unexpected content). -/
def handleParsed (cfg : AgentLoopConfig) (exec : ExecFn) (stepNo : Nat)
    (st : LoopState) (p : ParsedLLMResponse) : LoopState :=
  if p.type = .errorT then { st with error := p.error }
  else if p.type = .toolCallsT ∧ 0 < (p.toolCalls.getD []).length then
    let tcs := p.toolCalls.getD []
    let st :=
      { st with messages := st.messages ++
          [{ role := .assistant, content := p.rawContent.getD "", toolCalls := tcs }] }
    execToolCalls exec cfg.maxToolOutputChars stepNo st tcs
  else if p.type = .doneT ∧ (p.answerMd.getD "") ≠ "" then
    let answerMd := p.answerMd.getD ""
    let verification := verifySourcesInAnswer answerMd cfg.repoRoot
    let st :=
      { st with steps := st.steps ++
          [({ stepNo := stepNo, modelMessageSummary := "Provided final answer"
              isDone := true, verifierPassed := some verification.valid
              verifierErrors := some verification.errors } : StepLog)] }
    if verification.valid then
      { st with finalAnswer := some answerMd, verified := true
                verifiedSources := verification.sources }
    else
      { st with messages := st.messages ++
          [({ role := .assistant, content := "DONE\n\n" ++ answerMd } : ContextMessage),
           ({ role := .user, content := generateRepairPrompt verification.errors } : ContextMessage)] }
  else
    { st with steps := st.steps ++
        [({ stepNo := stepNo
            modelMessageSummary :=
              match p.rawContent with
              | some r => jsSlice r 0 200
              | none => "Empty response"
            isDone := false } : StepLog)] }

/-- One iteration of the `while (currentStep < maxSteps)` loop. -/
def loopIter (cfg : AgentLoopConfig) (script : Script) (exec : ExecFn)
    (st : LoopState) : LoopState :=
  let stepNo := st.currentStep + 1
  let req : ChatRequest := { messages := st.messages, tools := loopToolNames }
  let st1 :=
    { st with currentStep := stepNo, callIdx := st.callIdx + 1
              requests := st.requests ++ [req] }
  match script st.callIdx with
  | .error e =>
    { st1 with error := some e
               steps := st1.steps ++
                 [{ stepNo := stepNo, modelMessageSummary := "Error: " ++ e
                    isDone := false }] }
  | .ok resp => handleParsed cfg exec stepNo st1 (parseResponse resp.assistantText resp.toolCalls)

/-- The loop breaks on `verified` or `error`; otherwise it iterates while
`currentStep < maxSteps`.  `fuel = maxSteps` suffices because each
iteration increments `currentStep`. -/
def loopGo (cfg : AgentLoopConfig) (script : Script) (exec : ExecFn) :
    Nat → LoopState → LoopState
  | 0, st => st
  | fuel + 1, st =>
    if st.verified || st.error.isSome then st
    else if st.currentStep < cfg.maxSteps then
      loopGo cfg script exec fuel (loopIter cfg script exec st)
    else st

def initState (cfg : AgentLoopConfig) : LoopState :=
  { messages :=
      [{ role := .system
         content := generateSystemPrompt cfg.maxSteps cfg.maxExcerptLines
           (formatToolDescriptions builtinTools) },
       { role := .user, content := cfg.question }]
    steps := [], gatheredEvidence := [], currentStep := 0, callIdx := 0
    finalAnswer := none, verified := false, verifiedSources := [], error := none
    requests := [], toolExecs := [] }

/-- The fallback answer synthesized when forced termination produced no
text (note the `join('\n') || '…'` falsiness on the empty string). -/
def fallbackAnswer (maxSteps : Nat) (gatheredEvidence : List String) : String :=
  "Unable to fully answer the question within " ++ toString maxSteps ++
  " steps.\n\n## Partial Information\n\n" ++
  (if joinSep "\n" gatheredEvidence = "" then "No evidence gathered."
   else joinSep "\n" gatheredEvidence) ++
  "\n\n## Sources\n\n(No verified sources available)"

/-- The forced-termination block (`if (currentStep >= maxSteps) { … }`):
one `chat` call with an empty tool list whose thrown errors are ignored,
then the fallback synthesis. -/
def forcedPhase (cfg : AgentLoopConfig) (script : Script) (st : LoopState) :
    LoopState :=
  let st :=
    { st with messages := st.messages ++
        [({ role := .user
            content := generateForcedTerminationPrompt cfg.maxSteps st.gatheredEvidence } :
          ContextMessage)] }
  let i := st.callIdx
  let req : ChatRequest := { messages := st.messages, tools := [] }
  let st := { st with callIdx := i + 1, requests := st.requests ++ [req] }
  let st :=
    match script i with
    | .error _ => st
    | .ok resp =>
      match resp.assistantText with
      | none => st
      | some t =>
        if t = "" then st
        else
          let parsed := parseResponse (some t) none
          match parsed.answerMd with
          | some a =>
            if a = "" then { st with finalAnswer := some t }
            else
              let verification := verifySourcesInAnswer a cfg.repoRoot
              { st with finalAnswer := some a, verified := verification.valid
                        verifiedSources := verification.sources }
          | none => { st with finalAnswer := some t }
  if st.finalAnswer = none then
    { st with finalAnswer := some (fallbackAnswer cfg.maxSteps st.gatheredEvidence)
              error := some ("Max steps (" ++ toString cfg.maxSteps ++ ") exceeded") }
  else st

/-- Everything after the main loop, producing the `AgentLoopResult`. -/
def finalPhase (cfg : AgentLoopConfig) (script : Script) (st : LoopState) :
    AgentLoopResult :=
  let st :=
    if !st.verified && st.error = none then
      if cfg.maxSteps ≤ st.currentStep then forcedPhase cfg script st else st
    else st
  { answerMd := st.finalAnswer.getD "No answer generated"
    steps := st.steps
    sources := st.verifiedSources
    verified := st.verified
    error := st.error
    requests := st.requests
    toolExecs := st.toolExecs }

/-- `runAgent(config)` from `agent/loop.ts`. -/
def runAgent (cfg : AgentLoopConfig) (script : Script) (exec : ExecFn) :
    AgentLoopResult :=
  finalPhase cfg script (loopGo cfg script exec cfg.maxSteps (initState cfg))

/-! ## Derived observations used in the statements -/

/-- Number of tool invocations carried by one scripted provider reply. -/
def numToolCalls : Except String ChatReply → Nat
  | .error _ => 0
  | .ok resp => (resp.toolCalls.getD []).length

/-- A provider reply that yields no usable answer text (thrown, or
`assistantText` absent or empty — the falsy cases of the source). -/
def noAnswerReply : Except String ChatReply → Bool
  | .error _ => true
  | .ok resp =>
    match resp.assistantText with
    | none => true
    | some t => t = ""

/-! ## Concrete scenarios for the closed statements -/

/-- A registry execution that always succeeds with a short summary. -/
def demoExec : ExecFn := fun _ _ => { success := true, data := .null, outputSummary := "ok" }

def demoCall : ToolCallResult := ⟨"id1", "get_excerpt", "{}"⟩

def emptyFs : Fs := fun _ => none

def c1Config : AgentLoopConfig := { repoRoot := "/repo", question := "q", maxSteps := 2 }

/-- Every reply is a DONE answer citing a file that does not exist. -/
def c1Script : Script := fun _ =>
  .ok { assistantText := some "DONE\n\nAnswer.\n\n## Sources\n- `missing.ts`:1-2" }

/-- A filesystem whose only file lives in `/a/repox`, a sibling of the
repository root `/a/repo` whose name extends the root's name. -/
def c2Fs : Fs := fun p => if p = "/a/repox/f.ts" then some "secret" else none

def c2Args : GetExcerptArgs := ⟨"../repox/f.ts", 1, 1⟩

/-- A mini registry instance for dispatch scenarios: validation accepts
`{}` and non-null payloads, rejects `null`; the handler runs on `{}`
and throws otherwise. -/
def demoIssue : ZodIssue := ⟨["topK"], "Number must be greater than or equal to 1"⟩

def demoTool : ToolDef :=
  { name := "demo_tool"
    validate := fun j =>
      match j with
      | .obj [] => .ok (.obj [])
      | .null => .error [demoIssue]
      | _ => .ok j
    handler := fun j =>
      match j with
      | .obj [] => .ok { success := true, data := .null, outputSummary := "ran" }
      | _ => .error "boom" }

def demoReg : List ToolDef := [demoTool]

/-- A `JSON.parse` oracle that accepts exactly the text `{}`. -/
def demoParse : String → Except String Json := fun s =>
  if s = "{}" then .ok (.obj []) else .error "Unexpected token"

def c5Config : AgentLoopConfig := { repoRoot := "/repo", question := "q", maxSteps := 1 }

/-- First turn: three tool invocations at once; afterwards plain text. -/
def c5Script : Script := fun n =>
  if n = 0 then .ok { toolCalls := some [demoCall, demoCall, demoCall] }
  else .ok { assistantText := some "x" }

/-- A provider that always throws. -/
def throwScript : Script := fun _ => .error "provider down"

def c6Fs : Fs := fun p => if p = "/repo/foo.ts" then some "a\nb\nc" else none

def c6Args : GetExcerptArgs := ⟨"foo.ts", 2, 99⟩

/-- An FTS oracle with one matching row. -/
def c7Fts : String → List FtsRow := fun _ => [⟨"a.ts", "x\nfoo x\nbar foo", -3⟩]

def c8Config : AgentLoopConfig := { repoRoot := "/repo", question := "q", maxSteps := 2 }

/-- Two tool-call turns, then an empty reply to the forced call. -/
def c8Script : Script := fun n =>
  if n < 2 then .ok { toolCalls := some [demoCall] } else .ok {}

def c9Config : AgentLoopConfig := { repoRoot := "/repo", question := "q", maxSteps := 3 }

/-- A reply that is neither tool calls nor a DONE answer. -/
def c9Script : Script := fun _ => .ok { assistantText := some "hello" }

def c10Config : AgentLoopConfig := { repoRoot := "/repo", question := "q", maxSteps := 1 }

/-- One tool-call turn, then an empty reply to the forced call. -/
def c10Script : Script := fun n =>
  if n = 0 then .ok { toolCalls := some [demoCall] } else .ok {}

/-! ## Helper lemmas -/

theorem splitSepChars_ne_nil (sep : Char) (cs : List Char) :
    splitSepChars sep cs ≠ [] := by
  induction cs with
  | nil => simp [splitSepChars]
  | cons c cs ih =>
    unfold splitSepChars
    split
    · simp
    · cases h : splitSepChars sep cs <;> simp

theorem jsSplitNl_length_pos (s : String) : 0 < (jsSplitNl s).length := by
  unfold jsSplitNl
  rw [List.length_map]
  cases h : splitSepChars '\n' s.toList with
  | nil => exact absurd h (splitSepChars_ne_nil _ _)
  | cons a l => simp

theorem listPrefix_refl (l : List Char) : listPrefix l l = true := by
  induction l with
  | nil => rfl
  | cons c cs ih => simp [listPrefix, ih]

theorem listPrefix_append_left (a c : List Char) :
    ∀ b, listPrefix (a ++ b) c = true → listPrefix a c = true := by
  induction a generalizing c with
  | nil => intro b _; rfl
  | cons x xs ih =>
    intro b h
    cases c with
    | nil => simp [listPrefix] at h
    | cons y ys =>
      simp only [List.cons_append, listPrefix, Bool.and_eq_true] at h ⊢
      exact ⟨h.1, ih ys b h.2⟩

theorem startsWith_of_descendant (root p : String)
    (h : isDescendant root p = true) : jsStartsWith p root = true := by
  unfold isDescendant at h
  rcases Bool.or_eq_true_iff.mp h with h1 | h2
  · have : p = root := by simpa using h1
    subst this
    exact listPrefix_refl _
  · unfold jsStartsWith at h2 ⊢
    have : (root ++ "/").toList = root.toList ++ "/".toList := String.data_append ..
    rw [this] at h2
    exact listPrefix_append_left _ _ _ h2

theorem listContains_append_right (a b sub : List Char)
    (h : listContains b sub = true) : listContains (a ++ b) sub = true := by
  induction a with
  | nil => simp only [List.nil_append]; exact h
  | cons x xs ih =>
    simp only [List.cons_append, listContains, Bool.or_eq_true]
    exact Or.inr ih

theorem checkSource_nil_startsWith (fs : Fs) (root : String) (s : Source)
    (h : checkSource fs root s = []) :
    jsStartsWith (resolveJoin root s.path) (resolveAbs root) = true := by
  by_cases hb : jsStartsWith (resolveJoin root s.path) (resolveAbs root) = true
  · exact hb
  · rw [Bool.not_eq_true] at hb
    unfold checkSource at h
    simp only [hb] at h
    repeat' split at h
    all_goals simp_all

/-! ## C1 -/

/-- C1: the claim fails on the code: `runAgent` reaches `verified = true`
for an answer citing `missing.ts`, even though no filesystem contains it
(`verifySourcesInAnswer` ignores its repository-root argument and skips
the existence and line-count checks, against its own TODO comment, the
spec's §4.4 workflow and `verifier.ts`'s `verifySources`).  The run never
consults any filesystem; in particular on the empty filesystem the cited
path does not exist. -/
theorem runAgent_marks_verified_without_filesystem_check :
    (runAgent c1Config c1Script demoExec).verified = true ∧
    (runAgent c1Config c1Script demoExec).sources = [⟨"missing.ts", 1, 2⟩] ∧
    emptyFs (resolveJoin c1Config.repoRoot "missing.ts") = none := by
  refine ⟨by decide, by decide, rfl⟩

/-! ## C2 -/

/-- C2 counterexample: with repository root `/a/repo`, the citation path
`../repox/f.ts` begins with `../` and resolves to `/a/repox/f.ts`, which
is not a descendant of the root — yet both the `get_excerpt` handler and
`verifySources` accept it, because the containment check is a string
prefix test without a trailing separator. -/
theorem containment_prefix_cex :
    (getExcerpt c2Fs "/a/repo" c2Args).success = true ∧
    isDescendant (resolveAbs "/a/repo") (resolveJoin "/a/repo" c2Args.path) = false ∧
    (verifySources c2Fs "/a/repo" [⟨"../repox/f.ts", 1, 1⟩]).valid = true := by
  refine ⟨by decide, by decide, by decide⟩

/-- C2 amended: containment is enforced as a string-prefix test on
resolved paths.  A `get_excerpt` success and every citation of a valid
`verifySources` run have a resolved path that extends the resolved root
as a string (paths failing this test are rejected with "outside
repository"); a path that canonicalizes outside the root can still pass
when its absolute path merely extends the root's spelling, as the
counterexample shows. -/
theorem containment_is_resolved_startsWith (fs : Fs) (root : String)
    (args : GetExcerptArgs) (sources : List Source) (s : Source) :
    ((getExcerpt fs root args).success = true →
      jsStartsWith (resolveJoin root args.path) (resolveAbs root) = true) ∧
    ((verifySources fs root sources).valid = true → s ∈ sources →
      jsStartsWith (resolveJoin root s.path) (resolveAbs root) = true) ∧
    (jsStartsWith (resolveJoin root args.path) (resolveAbs root) = false →
      getExcerpt fs root args =
        { success := false
          data := ⟨args.path, args.startLine, args.endLine, "", 0⟩
          outputSummary := "Access denied: path outside repository"
          error := some "Path outside repository" }) ∧
    (s.path ≠ "" → 1 ≤ s.startLine → s.startLine ≤ s.endLine →
      jsStartsWith (resolveJoin root s.path) (resolveAbs root) = false →
      checkSource fs root s =
        ["Source " ++ s.path ++ ": path outside repository"]) := by
  refine ⟨?_, ?_, ?_, ?_⟩
  · intro hsucc
    by_contra hns
    rw [Bool.not_eq_true] at hns
    simp [getExcerpt, hns] at hsucc
  · intro hvalid hmem
    unfold verifySources at hvalid
    split at hvalid
    · simp at hvalid
    · simp only [List.isEmpty_iff, List.flatten_eq_nil_iff] at hvalid
      have hnil : checkSource fs root s = [] :=
        hvalid _ (List.mem_map_of_mem _ hmem)
      exact checkSource_nil_startsWith fs root s hnil
  · intro hns
    simp [getExcerpt, hns]
  · intro hp h1 h2 hsw
    have g1 : ¬(s.startLine < 1) := by omega
    have g2 : ¬(s.endLine < s.startLine) := by omega
    simp [checkSource, hp, g1, g2, hsw]

/-- C2 witness: instantiating the amended statement at the
counterexample filesystem. -/
theorem containment_startsWith_witness :
    jsStartsWith (resolveJoin "/a/repo" "../repox/f.ts") (resolveAbs "/a/repo") = true :=
  (containment_is_resolved_startsWith c2Fs "/a/repo" c2Args [] ⟨"../repox/f.ts", 1, 1⟩).1
    (by decide)

/-! ## C3 -/

theorem ite_ne_hash {c : Prop} [Decidable c] {a b : Char} (ha : a ≠ '#')
    (hb : b ≠ '#') : (if c then a else b) ≠ '#' := by
  by_cases h : c
  · rw [if_pos h]; exact ha
  · rw [if_neg h]; exact hb

theorem digitChar_ne_hash (n : Nat) : Nat.digitChar n ≠ '#' := by
  unfold Nat.digitChar
  repeat' first
    | exact ite_ne_hash (by decide) (by decide)
    | apply ite_ne_hash (by decide)

theorem toDigitsCore_ne_hash (b : Nat) :
    ∀ (f n : Nat) (ds : List Char), (∀ c ∈ ds, c ≠ '#') →
      ∀ c ∈ Nat.toDigitsCore b f n ds, c ≠ '#' := by
  intro f
  induction f with
  | zero =>
    intro n ds h c hc
    exact h c hc
  | succ f ih =>
    intro n ds h c hc
    have hc' : c ∈ (if n / b = 0 then Nat.digitChar (n % b) :: ds
        else Nat.toDigitsCore b f (n / b) (Nat.digitChar (n % b) :: ds)) := hc
    have hcons : ∀ c' ∈ Nat.digitChar (n % b) :: ds, c' ≠ '#' := by
      intro c' hm
      rcases List.mem_cons.mp hm with h1 | h2
      · exact h1 ▸ digitChar_ne_hash _
      · exact h c' h2
    split at hc'
    · exact hcons c hc'
    · exact ih _ _ hcons c hc'

theorem natRepr_ne_hash (n : Nat) : ∀ c ∈ (toString n).toList, c ≠ '#' := by
  intro c hc
  have : (toString n).toList = Nat.toDigitsCore 10 (n + 1) n [] := rfl
  rw [this] at hc
  exact toDigitsCore_ne_hash 10 (n + 1) n [] (by intro c' hc'; cases hc') c hc

theorem toList_append (a b : String) : (a ++ b).toList = a.toList ++ b.toList :=
  String.data_append ..

theorem joinSep_chars_ne_hash (sep : String) (hsep : ∀ c ∈ sep.toList, c ≠ '#') :
    ∀ l : List String, (∀ s ∈ l, ∀ c ∈ s.toList, c ≠ '#') →
      ∀ c ∈ (joinSep sep l).toList, c ≠ '#' := by
  intro l
  induction l with
  | nil => intro _ c hc; cases hc
  | cons x xs ih =>
    intro h c hc
    cases xs with
    | nil => exact h x (List.mem_cons_self _ _) c hc
    | cons y ys =>
      rw [show joinSep sep (x :: y :: ys) = x ++ sep ++ joinSep sep (y :: ys) from rfl,
        toList_append, toList_append] at hc
      rcases List.mem_append.mp hc with h1 | h2
      · rcases List.mem_append.mp h1 with h3 | h4
        · exact h x (List.mem_cons_self _ _) c h3
        · exact hsep c h4
      · exact ih (fun s hs => h s (List.mem_cons_of_mem _ hs)) c h2

theorem formatSources_ne_hash (cs : List Source)
    (h : ∀ src ∈ cs, ∀ ch ∈ src.path.toList, ch ≠ '#') :
    ∀ ch ∈ (formatSources cs).toList, ch ≠ '#' := by
  have hdash : ∀ c ∈ "- ".toList, c ≠ '#' := by decide
  have hcolon : ∀ c ∈ ":".toList, c ≠ '#' := by decide
  have hminus : ∀ c ∈ "-".toList, c ≠ '#' := by decide
  unfold formatSources
  split
  · have hns : ∀ c ∈ "No sources".toList, c ≠ '#' := by decide
    intro ch hc
    exact hns ch hc
  · refine joinSep_chars_ne_hash "\n" (by decide) _ ?_
    intro s hs
    rcases List.mem_map.mp hs with ⟨src, hsrc, rfl⟩
    intro ch hc
    rw [toList_append, toList_append, toList_append, toList_append,
      toList_append] at hc
    rcases List.mem_append.mp hc with h1 | h6
    · rcases List.mem_append.mp h1 with h2 | h5
      · rcases List.mem_append.mp h2 with h3 | h4
        · rcases List.mem_append.mp h3 with ha | hb
          · rcases List.mem_append.mp ha with hx | hy
            · exact hdash ch hx
            · exact h src hsrc ch hy
          · exact hcolon ch hb
        · exact natRepr_ne_hash _ ch h4
      · exact hminus ch h5
    · exact natRepr_ne_hash _ ch h6

theorem findSectionGo_none (cs : List Char) (h : ∀ c ∈ cs, c ≠ '#') :
    findSectionGo cs = none := by
  induction cs with
  | nil => rfl
  | cons c cs ih =>
    have hc : c ≠ '#' := h c (List.mem_cons_self _ _)
    have htl : ∀ c' ∈ cs, c' ≠ '#' := fun c' hc' => h c' (List.mem_cons_of_mem _ hc')
    cases cs with
    | nil => simp [findSectionGo, matchHeaderAt]
    | cons d ds =>
      rw [show findSectionGo (c :: d :: ds) =
          (match matchHeaderAt (c :: d :: ds) with
           | some cap => some cap
           | none => findSectionGo (d :: ds)) from rfl]
      rw [show matchHeaderAt (c :: d :: ds) =
          (if c = '#' && d = '#' then
            (let rest1 := (ds).dropWhile jsWs
             if (rest1.take 7).map Char.toLower = "sources".toList then
               let rest2 := rest1.drop 7
               let run := rest2.takeWhile jsWs
               match run.reverse.findIdx? (· = '\n') with
               | some j => some (rest2.drop (run.length - j))
               | none => none
             else none)
           else none) from rfl]
      simp only [hc, decide_eq_true_eq, Bool.false_and, decide_eq_false hc,
        Bool.false_and, if_false]
      exact ih htl

/-- C3 counterexample: the round-trip law fails already on the singleton
list `[a.ts:1-2]` (which satisfies the claim's side conditions):
`formatSources` emits neither a `## Sources` header nor backticks, so
`parseSourcesFromMarkdown` recovers nothing. -/
theorem roundtrip_fails_cex :
    ((1 : Nat) ≤ 1 ∧ (1 : Nat) ≤ 2) ∧
    parseSourcesFromMarkdown (formatSources [⟨"a.ts", 1, 2⟩]) ≠ [⟨"a.ts", 1, 2⟩] := by
  exact ⟨⟨Nat.le_refl 1, by decide⟩, by decide⟩

/-- C3 amended: `parseSourcesFromMarkdown ∘ formatSources` is constantly
`[]` (for citation lists whose paths avoid `#`, which could fabricate a
header): the renderer writes `- path:start-end` lines without the
`## Sources` header and without backticks that the parser requires, so
the round-trip law holds only for the empty citation list. -/
theorem parse_of_formatSources_empty (cs : List Source)
    (h : ∀ src ∈ cs, ∀ ch ∈ src.path.toList, ch ≠ '#') :
    parseSourcesFromMarkdown (formatSources cs) = [] := by
  unfold parseSourcesFromMarkdown findSourcesSection
  rw [findSectionGo_none _ (formatSources_ne_hash cs h)]
  rfl

/-- C3 witness for the amended statement at the counterexample list. -/
theorem parse_of_formatSources_empty_witness :
    parseSourcesFromMarkdown (formatSources [⟨"a.ts", 1, 2⟩]) = [] :=
  parse_of_formatSources_empty [⟨"a.ts", 1, 2⟩] (by decide)

/-! ## C4 -/

/-- C4: `executeToolCall` is a total function into `ToolResult` (the
embedding is a plain function — nothing escapes as an exception), and on
each path it returns the stated failure: an unknown name reports the
name and enumerates every registered tool, unparsable JSON arguments
report the parse failure, schema-invalid arguments report the joined
validator messages, a throwing handler is caught with its error string,
and otherwise the handler's own result is returned. -/
theorem executeToolCall_total_dispatch
    (jsonParse : String → Except String Json) (reg : List ToolDef)
    (name : String) (payload : ArgsPayload) :
    (lookupTool reg name = none →
      executeToolCall jsonParse reg name payload =
        { success := false, data := .null
          outputSummary := "Unknown tool: \"" ++ name ++ "\". Available tools: " ++
            joinSep ", " (getToolNames reg)
          error := some ("Unknown tool: " ++ name) }) ∧
    (∀ tool, lookupTool reg name = some tool →
      (∀ e, parseArgsPayload jsonParse payload = .error e →
        executeToolCall jsonParse reg name payload =
          { success := false, data := .null
            outputSummary := "Failed to parse arguments: " ++ e
            error := some "Invalid JSON arguments" }) ∧
      (∀ args issues, parseArgsPayload jsonParse payload = .ok args →
        tool.validate args = .error issues →
        executeToolCall jsonParse reg name payload =
          { success := false, data := .null
            outputSummary := "Invalid arguments for \"" ++ name ++ "\": " ++
              joinSep "; " (issues.map fun i => joinSep "." i.path ++ ": " ++ i.message)
            error := some ("Validation failed: " ++
              joinSep "; " (issues.map fun i => joinSep "." i.path ++ ": " ++ i.message)) }) ∧
      (∀ args v e, parseArgsPayload jsonParse payload = .ok args →
        tool.validate args = .ok v → tool.handler v = .error e →
        executeToolCall jsonParse reg name payload =
          { success := false, data := .null
            outputSummary := "Tool execution failed: " ++ e
            error := some e }) ∧
      (∀ args v r, parseArgsPayload jsonParse payload = .ok args →
        tool.validate args = .ok v → tool.handler v = .ok r →
        executeToolCall jsonParse reg name payload = r)) := by
  constructor
  · intro hnone
    simp [executeToolCall, hnone]
  · intro tool htool
    refine ⟨?_, ?_, ?_, ?_⟩
    · intro e hp
      simp [executeToolCall, htool, hp]
    · intro args issues hp hv
      simp [executeToolCall, htool, hp, hv]
    · intro args v e hp hv hh
      simp [executeToolCall, htool, hp, hv, hh]
    · intro args v r hp hv hh
      simp [executeToolCall, htool, hp, hv, hh]

/-- C4 witness: the four failure paths and the success path at the demo
registry. -/
theorem executeToolCall_dispatch_witness :
    executeToolCall demoParse demoReg "frobnicate" (.obj (.obj [])) =
      { success := false, data := .null
        outputSummary := "Unknown tool: \"frobnicate\". Available tools: demo_tool"
        error := some "Unknown tool: frobnicate" } ∧
    executeToolCall demoParse demoReg "demo_tool" (.str "nope") =
      { success := false, data := .null
        outputSummary := "Failed to parse arguments: Unexpected token"
        error := some "Invalid JSON arguments" } ∧
    executeToolCall demoParse demoReg "demo_tool" (.obj .null) =
      { success := false, data := .null
        outputSummary :=
          "Invalid arguments for \"demo_tool\": topK: Number must be greater than or equal to 1"
        error := some "Validation failed: topK: Number must be greater than or equal to 1" } ∧
    executeToolCall demoParse demoReg "demo_tool" (.obj (.str "z")) =
      { success := false, data := .null
        outputSummary := "Tool execution failed: boom"
        error := some "boom" } ∧
    executeToolCall demoParse demoReg "demo_tool" (.obj (.obj [])) =
      { success := true, data := .null, outputSummary := "ran", error := none } := by
  refine ⟨?_, ?_, ?_, ?_, ?_⟩
  · exact (executeToolCall_total_dispatch demoParse demoReg "frobnicate"
      (.obj (.obj []))).1 rfl
  · exact ((executeToolCall_total_dispatch demoParse demoReg "demo_tool"
      (.str "nope")).2 demoTool rfl).1 "Unexpected token" rfl
  · exact ((executeToolCall_total_dispatch demoParse demoReg "demo_tool"
      (.obj .null)).2 demoTool rfl).2.1 .null [demoIssue] rfl rfl
  · exact ((executeToolCall_total_dispatch demoParse demoReg "demo_tool"
      (.obj (.str "z"))).2 demoTool rfl).2.2.1 (.str "z") (.str "z") "boom" rfl rfl rfl
  · exact ((executeToolCall_total_dispatch demoParse demoReg "demo_tool"
      (.obj (.obj []))).2 demoTool rfl).2.2.2 (.obj []) (.obj [])
      { success := true, data := .null, outputSummary := "ran", error := none } rfl rfl rfl

/-! ## C6 -/

/-- C6: for a path that resolves inside the repository, `get_excerpt` on
an existing file succeeds with the clamped range
`start = max(1, min(startLine, N))`, `end = max(start, min(endLine, N))`
(so `1 ≤ start ≤ end ≤ N`), content the newline-joined slice with each
line prefixed by its absolute number, under the header
`File: <path> (lines a-b of N)`; on a missing file it fails. -/
theorem getExcerpt_clamps_and_numbers (fs : Fs) (root : String)
    (args : GetExcerptArgs)
    (hin : isDescendant (resolveAbs root) (resolveJoin root args.path) = true) :
    (∀ content, fs (resolveJoin root args.path) = some content →
      let lines := jsSplitNl content
      let n := lines.length
      let s := max 1 (min args.startLine n)
      let e := max s (min args.endLine n)
      let numbered := joinSep "\n" (numberLines s ((lines.drop (s - 1)).take (e - (s - 1))))
      getExcerpt fs root args =
        { success := true
          data := ⟨args.path, s, e, numbered, n⟩
          outputSummary := "File: " ++ args.path ++ " (lines " ++ toString s ++
            "-" ++ toString e ++ " of " ++ toString n ++ ")\n\n" ++ numbered
          error := none } ∧
      1 ≤ s ∧ s ≤ e ∧ e ≤ n) ∧
    (fs (resolveJoin root args.path) = none →
      (getExcerpt fs root args).success = false ∧
      (getExcerpt fs root args).error = some "File not found") := by
  have hsw := startsWith_of_descendant _ _ hin
  constructor
  · intro content hfs
    have hn : 1 ≤ (jsSplitNl content).length := jsSplitNl_length_pos content
    have hs_le_n : max 1 (min args.startLine (jsSplitNl content).length) ≤
        (jsSplitNl content).length :=
      Nat.max_le.mpr ⟨hn, Nat.min_le_right _ _⟩
    refine ⟨?_, Nat.le_max_left 1 _, Nat.le_max_left _ _,
      Nat.max_le.mpr ⟨hs_le_n, Nat.min_le_right _ _⟩⟩
    simp [getExcerpt, hsw, hfs]
  · intro hfs
    constructor <;> simp [getExcerpt, hsw, hfs]

/-- C6 witness: a three-line file, requested range `2..99`, clamps to
`2..3` with numbered content under the header. -/
theorem getExcerpt_clamps_witness :
    getExcerpt c6Fs "/repo" c6Args =
      { success := true
        data := ⟨"foo.ts", 2, 3, "2: b\n3: c", 3⟩
        outputSummary := "File: foo.ts (lines 2-3 of 3)\n\n2: b\n3: c"
        error := none } :=
  (((getExcerpt_clamps_and_numbers c6Fs "/repo" c6Args (by decide)).1
    "a\nb\nc" rfl).1 : _)

/-! ## C7 -/

theorem goPair_spec (terms : List String) :
    ∀ (ls : List String) (i b s : Nat),
      (goPair terms ls i b s = (b, s) ∧
        ∀ j < ls.length, lineScore terms (ls.getD j "") ≤ s) ∨
      (∃ j, j < ls.length ∧
        (goPair terms ls i b s).1 = i + j + 1 ∧
        (goPair terms ls i b s).2 = lineScore terms (ls.getD j "") ∧
        s < (goPair terms ls i b s).2 ∧
        (∀ k < j, lineScore terms (ls.getD k "") < (goPair terms ls i b s).2) ∧
        (∀ k < ls.length, lineScore terms (ls.getD k "") ≤ (goPair terms ls i b s).2)) := by
  intro ls
  induction ls with
  | nil =>
    intro i b s
    left
    exact ⟨rfl, by intro j hj; cases hj⟩
  | cons l ls ih =>
    intro i b s
    by_cases hgt : s < lineScore terms l
    · have hred : goPair terms (l :: ls) i b s =
          goPair terms ls (i + 1) (i + 1) (lineScore terms l) := by
        simp [goPair, hgt]
      rcases ih (i + 1) (i + 1) (lineScore terms l) with ⟨heq, hall⟩ | ⟨j, hj, h1, h2, h3, h4, h5⟩
      · right
        refine ⟨0, Nat.succ_pos _, ?_, ?_, ?_, ?_, ?_⟩
        · rw [hred, heq]
        · rw [hred, heq]
          simp
        · rw [hred, heq]
          exact hgt
        · intro k hk
          cases hk
        · intro k hk
          rw [hred, heq]
          cases k with
          | zero => simp
          | succ k => simpa using hall k (Nat.lt_of_succ_lt_succ hk)
      · right
        refine ⟨j + 1, Nat.succ_lt_succ hj, ?_, ?_, ?_, ?_, ?_⟩
        · rw [hred, h1]
          omega
        · rw [hred, h2]
          simp
        · rw [hred]
          exact Nat.lt_trans hgt h3
        · intro k hk
          rw [hred]
          cases k with
          | zero => simpa using h3
          | succ k => simpa using h4 k (Nat.lt_of_succ_lt_succ hk)
        · intro k hk
          rw [hred]
          cases k with
          | zero => simpa using Nat.le_of_lt h3
          | succ k => simpa using h5 k (Nat.lt_of_succ_lt_succ hk)
    · have hle : lineScore terms l ≤ s := Nat.le_of_not_lt hgt
      have hred : goPair terms (l :: ls) i b s = goPair terms ls (i + 1) b s := by
        simp [goPair, hgt]
      rcases ih (i + 1) b s with ⟨heq, hall⟩ | ⟨j, hj, h1, h2, h3, h4, h5⟩
      · left
        refine ⟨by rw [hred, heq], ?_⟩
        intro j hj
        cases j with
        | zero => simpa using hle
        | succ j => simpa using hall j (Nat.lt_of_succ_lt_succ hj)
      · right
        refine ⟨j + 1, Nat.succ_lt_succ hj, ?_, ?_, ?_, ?_, ?_⟩
        · rw [hred, h1]
          omega
        · rw [hred, h2]
          simp
        · rw [hred]
          exact h3
        · intro k hk
          rw [hred]
          cases k with
          | zero => simpa using Nat.lt_of_le_of_lt hle h3
          | succ k => simpa using h4 k (Nat.lt_of_succ_lt_succ hk)
        · intro k hk
          rw [hred]
          cases k with
          | zero => simpa using Nat.le_of_lt (Nat.lt_of_le_of_lt hle h3)
          | succ k => simpa using h5 k (Nat.lt_of_succ_lt_succ hk)

theorem findBestMatchLine_spec (lines : List String) (query : String)
    (hne : 0 < lines.length) :
    1 ≤ findBestMatchLine lines query ∧
    findBestMatchLine lines query ≤ lines.length ∧
    (∀ k < lines.length,
      lineScore (jsSplitWs (jsToLower query)) (lines.getD k "") ≤
        lineScore (jsSplitWs (jsToLower query)) (lines.getD (findBestMatchLine lines query - 1) "")) ∧
    (∀ k < lines.length,
      lineScore (jsSplitWs (jsToLower query)) (lines.getD k "") =
        lineScore (jsSplitWs (jsToLower query)) (lines.getD (findBestMatchLine lines query - 1) "") →
      findBestMatchLine lines query - 1 ≤ k) := by
  unfold findBestMatchLine
  rcases goPair_spec (jsSplitWs (jsToLower query)) lines 0 1 0 with ⟨heq, hall⟩ | ⟨j, hj, h1, h2, h3, h4, h5⟩
  · rw [heq]
    have h0 : lineScore (jsSplitWs (jsToLower query)) (lines.getD 0 "") = 0 :=
      Nat.le_zero.mp (hall 0 hne)
    refine ⟨Nat.le_refl 1, hne, ?_, ?_⟩
    · intro k hk
      have h := hall k hk
      have h0' : lineScore (jsSplitWs (jsToLower query)) (lines.getD (1 - 1) "") = 0 := h0
      omega
    · intro k _ _
      simp
  · rw [h1]
    have hfocus : 0 + j + 1 - 1 = j := by omega
    refine ⟨by omega, by omega, ?_, ?_⟩
    · intro k hk
      rw [hfocus, ← h2]
      exact h5 k hk
    · intro k hk hkeq
      rw [hfocus] at hkeq ⊢
      by_contra hlt
      have : k < j := by omega
      have := h4 k this
      rw [← h2] at hkeq
      omega

/-- C7: `Indexer.search` returns at most `topK` rows; each row carries
`score = |raw bm25 score|` of its FTS row, and its snippet spans
`[max(1, focus−5), min(lineCount, focus+15)]` where `focus` is the line
containing the greatest number of case-folded query terms, earliest line
winning ties. -/
theorem search_topK_score_snippet_focus (fts : String → List FtsRow)
    (query : String) (topK : Nat) :
    (Indexer.search fts query topK).length ≤ topK ∧
    ∀ r ∈ Indexer.search fts query topK,
      ∃ row, row ∈ (fts (sanitizeQuery query)).take topK ∧
        r.path = row.path ∧
        r.score = row.score.natAbs ∧
        r.startLine = max 1 (findBestMatchLine (jsSplitNl row.content) query - 5) ∧
        r.endLine = min (jsSplitNl row.content).length
          (findBestMatchLine (jsSplitNl row.content) query + 15) ∧
        r.snippet = joinSep "\n"
          (((jsSplitNl row.content).drop (r.startLine - 1)).take
            (r.endLine - (r.startLine - 1))) ∧
        1 ≤ findBestMatchLine (jsSplitNl row.content) query ∧
        findBestMatchLine (jsSplitNl row.content) query ≤ (jsSplitNl row.content).length ∧
        (∀ k < (jsSplitNl row.content).length,
          lineScore (jsSplitWs (jsToLower query)) ((jsSplitNl row.content).getD k "") ≤
            lineScore (jsSplitWs (jsToLower query))
              ((jsSplitNl row.content).getD
                (findBestMatchLine (jsSplitNl row.content) query - 1) "")) ∧
        (∀ k < (jsSplitNl row.content).length,
          lineScore (jsSplitWs (jsToLower query)) ((jsSplitNl row.content).getD k "") =
            lineScore (jsSplitWs (jsToLower query))
              ((jsSplitNl row.content).getD
                (findBestMatchLine (jsSplitNl row.content) query - 1) "") →
          findBestMatchLine (jsSplitNl row.content) query - 1 ≤ k) := by
  by_cases hq : sanitizeQuery query = ""
  · constructor
    · simp [Indexer.search, hq]
    · intro r hr
      simp [Indexer.search, hq] at hr
  · constructor
    · simp only [Indexer.search, hq, if_false, List.length_map]
      exact Nat.le_trans (Nat.le_of_eq (List.length_take _ _)) (Nat.min_le_left _ _)
    · intro r hr
      simp only [Indexer.search, hq, if_false, List.mem_map] at hr
      rcases hr with ⟨row, hrow, rfl⟩
      rcases findBestMatchLine_spec (jsSplitNl row.content) query
        (jsSplitNl_length_pos _) with ⟨hf1, hf2, hf3, hf4⟩
      exact ⟨row, hrow, rfl, rfl, rfl, rfl, rfl, hf1, hf2, hf3, hf4⟩

/-- C7 witness: a single-row FTS oracle; the focus line is line 3 (two
query terms), the snippet spans `[1, 3]`, the score is `|-3| = 3`. -/
theorem search_focus_witness :
    ∃ row, row ∈ (c7Fts (sanitizeQuery "foo bar")).take 2 ∧
      ({ path := "a.ts", score := 3, snippet := "x\nfoo x\nbar foo"
         startLine := 1, endLine := 3 } : SearchResult).path = row.path ∧
      ({ path := "a.ts", score := 3, snippet := "x\nfoo x\nbar foo"
         startLine := 1, endLine := 3 } : SearchResult).score = row.score.natAbs ∧
      ({ path := "a.ts", score := 3, snippet := "x\nfoo x\nbar foo"
         startLine := 1, endLine := 3 } : SearchResult).startLine =
        max 1 (findBestMatchLine (jsSplitNl row.content) "foo bar" - 5) ∧
      ({ path := "a.ts", score := 3, snippet := "x\nfoo x\nbar foo"
         startLine := 1, endLine := 3 } : SearchResult).endLine =
        min (jsSplitNl row.content).length
          (findBestMatchLine (jsSplitNl row.content) "foo bar" + 15) ∧
      ({ path := "a.ts", score := 3, snippet := "x\nfoo x\nbar foo"
         startLine := 1, endLine := 3 } : SearchResult).snippet = joinSep "\n"
          (((jsSplitNl row.content).drop
            (({ path := "a.ts", score := 3, snippet := "x\nfoo x\nbar foo"
                startLine := 1, endLine := 3 } : SearchResult).startLine - 1)).take
            (({ path := "a.ts", score := 3, snippet := "x\nfoo x\nbar foo"
                startLine := 1, endLine := 3 } : SearchResult).endLine -
              (({ path := "a.ts", score := 3, snippet := "x\nfoo x\nbar foo"
                  startLine := 1, endLine := 3 } : SearchResult).startLine - 1))) ∧
      1 ≤ findBestMatchLine (jsSplitNl row.content) "foo bar" ∧
      findBestMatchLine (jsSplitNl row.content) "foo bar" ≤ (jsSplitNl row.content).length ∧
      (∀ k < (jsSplitNl row.content).length,
        lineScore (jsSplitWs (jsToLower "foo bar")) ((jsSplitNl row.content).getD k "") ≤
          lineScore (jsSplitWs (jsToLower "foo bar"))
            ((jsSplitNl row.content).getD
              (findBestMatchLine (jsSplitNl row.content) "foo bar" - 1) "")) ∧
      (∀ k < (jsSplitNl row.content).length,
        lineScore (jsSplitWs (jsToLower "foo bar")) ((jsSplitNl row.content).getD k "") =
          lineScore (jsSplitWs (jsToLower "foo bar"))
            ((jsSplitNl row.content).getD
              (findBestMatchLine (jsSplitNl row.content) "foo bar" - 1) "") →
        findBestMatchLine (jsSplitNl row.content) "foo bar" - 1 ≤ k) :=
  (search_topK_score_snippet_focus c7Fts "foo bar" 2).2
    { path := "a.ts", score := 3, snippet := "x\nfoo x\nbar foo"
      startLine := 1, endLine := 3 } (by decide)

/-! ## Agent-loop invariants -/

theorem execToolCalls_invariants (exec : ExecFn) (m sn : Nat) :
    ∀ (tcs : List ToolCallResult) (st : LoopState),
      (execToolCalls exec m sn st tcs).currentStep = st.currentStep ∧
      (execToolCalls exec m sn st tcs).callIdx = st.callIdx ∧
      (execToolCalls exec m sn st tcs).verified = st.verified ∧
      (execToolCalls exec m sn st tcs).error = st.error ∧
      (execToolCalls exec m sn st tcs).finalAnswer = st.finalAnswer ∧
      (execToolCalls exec m sn st tcs).verifiedSources = st.verifiedSources ∧
      (execToolCalls exec m sn st tcs).requests = st.requests ∧
      (execToolCalls exec m sn st tcs).steps.length = st.steps.length + tcs.length ∧
      (∀ e ∈ (execToolCalls exec m sn st tcs).toolExecs,
        e ∈ st.toolExecs ∨ e.stepNo = sn) := by
  intro tcs
  induction tcs with
  | nil =>
    intro st
    refine ⟨rfl, rfl, rfl, rfl, rfl, rfl, rfl, rfl, ?_⟩
    intro e he
    exact Or.inl he
  | cons tc tcs ih =>
    intro st
    rw [show execToolCalls exec m sn st (tc :: tcs) =
      execToolCalls exec m sn
        { st with
          gatheredEvidence := st.gatheredEvidence ++
            (if (exec tc.name tc.argumentsJson).success then
              ["[" ++ tc.name ++ "] " ++
                jsSlice (truncateOutput (exec tc.name tc.argumentsJson).outputSummary m) 0 200 ++
                "..."]
             else [])
          messages := st.messages ++
            [{ role := .tool
               content := truncateOutput (exec tc.name tc.argumentsJson).outputSummary m
               toolCallId := some tc.id }]
          steps := st.steps ++
            [{ stepNo := sn, toolName := some tc.name, toolInput := some tc.argumentsJson
               toolOutputSummary := some
                 (jsSlice (truncateOutput (exec tc.name tc.argumentsJson).outputSummary m) 0 500)
               modelMessageSummary := "Called " ++ tc.name, isDone := false }]
          toolExecs := st.toolExecs ++ [⟨sn, tc.name, tc.argumentsJson⟩] } tcs from rfl]
    rcases ih _ with ⟨h1, h2, h3, h4, h5, h6, h7, h8, h9⟩
    refine ⟨h1, h2, h3, h4, h5, h6, h7, ?_, ?_⟩
    · rw [h8]
      simp only [List.length_append, List.length_cons, List.length_nil]
      omega
    · intro e he
      rcases h9 e he with hmem | hsn
      · rcases List.mem_append.mp hmem with hl | hr
        · exact Or.inl hl
        · simp only [List.mem_singleton] at hr
          subst hr
          exact Or.inr rfl
      · exact Or.inr hsn

theorem parseResponse_toolCalls_le (content : Option String)
    (toolCalls : Option (List ToolCallResult)) :
    ((parseResponse content toolCalls).toolCalls.getD []).length ≤
      (toolCalls.getD []).length := by
  unfold parseResponse
  cases toolCalls with
  | none =>
    unfold parseContentPart
    cases content with
    | none => simp
    | some c =>
      simp only
      split
      · simp
      · split
        · simp
        · split <;> simp
  | some tcs =>
    simp only
    split
    · simp
    · unfold parseContentPart
      cases content with
      | none => simp
      | some c =>
        simp only
        split
        · simp
        · split
          · simp
          · split <;> simp

theorem handleParsed_invariants (cfg : AgentLoopConfig) (exec : ExecFn) (sn : Nat)
    (st : LoopState) (p : ParsedLLMResponse) :
    (handleParsed cfg exec sn st p).currentStep = st.currentStep ∧
    (handleParsed cfg exec sn st p).callIdx = st.callIdx ∧
    (handleParsed cfg exec sn st p).requests = st.requests ∧
    (handleParsed cfg exec sn st p).steps.length ≤
      st.steps.length + max 1 (p.toolCalls.getD []).length ∧
    ((handleParsed cfg exec sn st p).verified = false →
      (handleParsed cfg exec sn st p).finalAnswer = st.finalAnswer) ∧
    (∀ e ∈ (handleParsed cfg exec sn st p).toolExecs,
      e ∈ st.toolExecs ∨ e.stepNo = sn) := by
  unfold handleParsed
  split
  · exact ⟨rfl, rfl, rfl, Nat.le_add_right _ _, fun _ => rfl, fun e he => Or.inl he⟩
  · split
    · rcases execToolCalls_invariants exec cfg.maxToolOutputChars sn (p.toolCalls.getD [])
        { st with messages := st.messages ++
            [{ role := .assistant, content := p.rawContent.getD ""
               toolCalls := p.toolCalls.getD [] }] }
        with ⟨h1, h2, h3, h4, h5, h6, h7, h8, h9⟩
      refine ⟨h1, h2, h7, ?_, fun _ => h5, h9⟩
      rw [h8]
      exact Nat.add_le_add_left (Nat.le_max_right _ _) _
    · split
      · simp only []
        split
        · refine ⟨rfl, rfl, rfl, ?_, ?_, fun e he => Or.inl he⟩
          · simp only [List.length_append, List.length_cons, List.length_nil]
            have h1 : 1 ≤ max 1 (p.toolCalls.getD []).length := Nat.le_max_left _ _
            omega
          · intro hv
            simp at hv
        · refine ⟨rfl, rfl, rfl, ?_, fun _ => rfl, fun e he => Or.inl he⟩
          simp only [List.length_append, List.length_cons, List.length_nil]
          have h1 : 1 ≤ max 1 (p.toolCalls.getD []).length := Nat.le_max_left _ _
          omega
      · refine ⟨rfl, rfl, rfl, ?_, fun _ => rfl, fun e he => Or.inl he⟩
        simp only [List.length_append, List.length_cons, List.length_nil]
        have h1 : 1 ≤ max 1 (p.toolCalls.getD []).length := Nat.le_max_left _ _
        omega

theorem loopIter_invariants (cfg : AgentLoopConfig) (script : Script) (exec : ExecFn)
    (st : LoopState) :
    (loopIter cfg script exec st).currentStep = st.currentStep + 1 ∧
    (loopIter cfg script exec st).callIdx = st.callIdx + 1 ∧
    (loopIter cfg script exec st).steps.length ≤
      st.steps.length + max 1 (numToolCalls (script st.callIdx)) ∧
    ((loopIter cfg script exec st).verified = false →
      (loopIter cfg script exec st).finalAnswer = st.finalAnswer) ∧
    (∀ e ∈ (loopIter cfg script exec st).toolExecs,
      e ∈ st.toolExecs ∨ e.stepNo = st.currentStep + 1) ∧
    (∀ r ∈ (loopIter cfg script exec st).requests,
      r ∈ st.requests ∨ r.tools = loopToolNames) := by
  unfold loopIter
  cases hscr : script st.callIdx with
  | error e =>
    refine ⟨rfl, rfl, ?_, fun _ => rfl, fun e he => Or.inl he, ?_⟩
    · simp only [List.length_append, List.length_cons, List.length_nil]
      exact Nat.add_le_add_left (Nat.le_max_left _ _) _
    · intro r hr
      rcases List.mem_append.mp hr with hl | hsing
      · exact Or.inl hl
      · simp only [List.mem_singleton] at hsing
        subst hsing
        exact Or.inr rfl
  | ok resp =>
    rcases handleParsed_invariants cfg exec (st.currentStep + 1)
      { st with currentStep := st.currentStep + 1, callIdx := st.callIdx + 1
                requests := st.requests ++
                  [{ messages := st.messages, tools := loopToolNames }] }
      (parseResponse resp.assistantText resp.toolCalls)
      with ⟨h1, h2, h3, h4, h5, h6⟩
    refine ⟨h1, h2, ?_, h5, h6, ?_⟩
    · refine Nat.le_trans h4 ?_
      have hle : ((parseResponse resp.assistantText resp.toolCalls).toolCalls.getD []).length ≤
          (resp.toolCalls.getD []).length := parseResponse_toolCalls_le _ _
      simp only [numToolCalls]
      exact Nat.add_le_add_left (max_le_max (Nat.le_refl 1) hle) _
    · intro r hr
      rw [h3] at hr
      rcases List.mem_append.mp hr with hl | hsing
      · exact Or.inl hl
      · simp only [List.mem_singleton] at hsing
        subst hsing
        exact Or.inr rfl

theorem loopGo_of_broken (cfg : AgentLoopConfig) (script : Script) (exec : ExecFn)
    (fuel : Nat) (st : LoopState) (h : (st.verified || st.error.isSome) = true) :
    loopGo cfg script exec fuel st = st := by
  cases fuel with
  | zero => rfl
  | succ n => simp [loopGo, h]

theorem loopGo_steps_bound (cfg : AgentLoopConfig) (script : Script) (exec : ExecFn)
    (hs : ∀ i, numToolCalls (script i) ≤ 1) :
    ∀ (fuel : Nat) (st : LoopState),
      (loopGo cfg script exec fuel st).steps.length ≤ st.steps.length + fuel := by
  intro fuel
  induction fuel with
  | zero =>
    intro st
    exact Nat.le_add_right _ _
  | succ n ih =>
    intro st
    rw [show loopGo cfg script exec (n + 1) st =
      (if (st.verified || st.error.isSome) = true then st
       else if st.currentStep < cfg.maxSteps then
         loopGo cfg script exec n (loopIter cfg script exec st)
       else st) from rfl]
    split
    · exact Nat.le_add_right _ _
    · split
      · refine Nat.le_trans (ih _) ?_
        rcases loopIter_invariants cfg script exec st with ⟨_, _, h3, _, _, _⟩
        have h4 := hs st.callIdx
        have hmax : max 1 (numToolCalls (script st.callIdx)) ≤ 1 :=
          Nat.max_le.mpr ⟨Nat.le_refl 1, h4⟩
        omega
      · exact Nat.le_add_right _ _

theorem loopGo_finalAnswer (cfg : AgentLoopConfig) (script : Script) (exec : ExecFn) :
    ∀ (fuel : Nat) (st : LoopState),
      (loopGo cfg script exec fuel st).verified = false →
      (loopGo cfg script exec fuel st).finalAnswer = st.finalAnswer := by
  intro fuel
  induction fuel with
  | zero => intro st _; rfl
  | succ n ih =>
    intro st hv
    by_cases hb : (st.verified || st.error.isSome) = true
    · rw [loopGo_of_broken cfg script exec _ st hb]
    · by_cases hc : st.currentStep < cfg.maxSteps
      · have hred : loopGo cfg script exec (n + 1) st =
            loopGo cfg script exec n (loopIter cfg script exec st) := by
          simp [loopGo, hb, hc]
        rw [hred] at hv ⊢
        rw [ih (loopIter cfg script exec st) hv]
        have hiv : (loopIter cfg script exec st).verified = false := by
          by_contra hcon
          rw [Bool.not_eq_false] at hcon
          rw [loopGo_of_broken cfg script exec n (loopIter cfg script exec st)
            (by simp [hcon])] at hv
          rw [hv] at hcon
          cases hcon
        exact (loopIter_invariants cfg script exec st).2.2.2.1 hiv
      · have hred : loopGo cfg script exec (n + 1) st = st := by
          simp [loopGo, hb, hc]
        rw [hred]

theorem loopGo_toolExecs (cfg : AgentLoopConfig) (script : Script) (exec : ExecFn) :
    ∀ (fuel : Nat) (st : LoopState),
      (∀ e ∈ st.toolExecs, e.stepNo ≤ cfg.maxSteps) →
      ∀ e ∈ (loopGo cfg script exec fuel st).toolExecs, e.stepNo ≤ cfg.maxSteps := by
  intro fuel
  induction fuel with
  | zero => intro st h; exact h
  | succ n ih =>
    intro st h
    rw [show loopGo cfg script exec (n + 1) st =
      (if (st.verified || st.error.isSome) = true then st
       else if st.currentStep < cfg.maxSteps then
         loopGo cfg script exec n (loopIter cfg script exec st)
       else st) from rfl]
    split
    · exact h
    · split
      case isTrue hc =>
        refine ih _ ?_
        intro e he
        rcases (loopIter_invariants cfg script exec st).2.2.2.2.1 e he with hmem | hsn
        · exact h e hmem
        · omega
      case isFalse => exact h

theorem loopGo_requests (cfg : AgentLoopConfig) (script : Script) (exec : ExecFn) :
    ∀ (fuel : Nat) (st : LoopState),
      ∀ r ∈ (loopGo cfg script exec fuel st).requests,
        r ∈ st.requests ∨ r.tools = loopToolNames := by
  intro fuel
  induction fuel with
  | zero => intro st r hr; exact Or.inl hr
  | succ n ih =>
    intro st r hr
    rw [show loopGo cfg script exec (n + 1) st =
      (if (st.verified || st.error.isSome) = true then st
       else if st.currentStep < cfg.maxSteps then
         loopGo cfg script exec n (loopIter cfg script exec st)
       else st) from rfl] at hr
    split at hr
    · exact Or.inl hr
    · split at hr
      · rcases ih _ r hr with hmem | htools
        · rcases (loopIter_invariants cfg script exec st).2.2.2.2.2 r hmem with h1 | h2
          · exact Or.inl h1
          · exact Or.inr h2
        · exact Or.inr htools
      · exact Or.inl hr

theorem loopGo_currentStep (cfg : AgentLoopConfig) (script : Script) (exec : ExecFn) :
    ∀ (fuel : Nat) (st : LoopState),
      (loopGo cfg script exec fuel st).verified = false →
      (loopGo cfg script exec fuel st).error = none →
      min cfg.maxSteps (st.currentStep + fuel) ≤
        (loopGo cfg script exec fuel st).currentStep := by
  intro fuel
  induction fuel with
  | zero =>
    intro st _ _
    exact Nat.min_le_right _ _
  | succ n ih =>
    intro st hv he
    by_cases hb : (st.verified || st.error.isSome) = true
    · rw [loopGo_of_broken cfg script exec _ st hb] at hv he ⊢
      rw [hv, he] at hb
      simp at hb
    · by_cases hc : st.currentStep < cfg.maxSteps
      · have hred : loopGo cfg script exec (n + 1) st =
            loopGo cfg script exec n (loopIter cfg script exec st) := by
          simp [loopGo, hb, hc]
        rw [hred] at hv he ⊢
        have hih := ih _ hv he
        rcases loopIter_invariants cfg script exec st with ⟨h1, _, _, _, _, _⟩
        rw [h1] at hih
        omega
      · have hred : loopGo cfg script exec (n + 1) st = st := by
          simp [loopGo, hb, hc]
        rw [hred]
        exact Nat.le_trans (Nat.min_le_left _ _) (Nat.le_of_not_lt hc)

theorem mem_append_single_tools (st : LoopState) (m : List ContextMessage)
    (r : ChatRequest)
    (hr : r ∈ st.requests ++ [{ messages := m, tools := ([] : List String) }]) :
    r ∈ st.requests ∨ r.tools = ([] : List String) := by
  rcases List.mem_append.mp hr with h | h
  · exact Or.inl h
  · simp only [List.mem_singleton] at h
    subst h
    exact Or.inr rfl

theorem forcedPhase_fields (cfg : AgentLoopConfig) (script : Script) (st : LoopState) :
    (forcedPhase cfg script st).steps = st.steps ∧
    (forcedPhase cfg script st).toolExecs = st.toolExecs ∧
    ∀ r ∈ (forcedPhase cfg script st).requests,
      r ∈ st.requests ∨ r.tools = ([] : List String) := by
  unfold forcedPhase
  simp only []
  cases hscr : script st.callIdx with
  | error e =>
    simp only [hscr]
    split
    · exact ⟨rfl, rfl, fun r hr => mem_append_single_tools st _ r hr⟩
    · exact ⟨rfl, rfl, fun r hr => mem_append_single_tools st _ r hr⟩
  | ok resp =>
    simp only [hscr]
    cases hat : resp.assistantText with
    | none =>
      simp only [hat]
      split
      · exact ⟨rfl, rfl, fun r hr => mem_append_single_tools st _ r hr⟩
      · exact ⟨rfl, rfl, fun r hr => mem_append_single_tools st _ r hr⟩
    | some t =>
      simp only [hat]
      by_cases ht : t = ""
      · simp only [if_pos ht]
        split
        · exact ⟨rfl, rfl, fun r hr => mem_append_single_tools st _ r hr⟩
        · exact ⟨rfl, rfl, fun r hr => mem_append_single_tools st _ r hr⟩
      · simp only [if_neg ht]
        cases hpa : (parseResponse (some t) none).answerMd with
        | none =>
          simp only [hpa]
          split
          · exact ⟨rfl, rfl, fun r hr => mem_append_single_tools st _ r hr⟩
          · exact ⟨rfl, rfl, fun r hr => mem_append_single_tools st _ r hr⟩
        | some a =>
          simp only [hpa]
          by_cases ha : a = ""
          · simp only [if_pos ha]
            split
            · exact ⟨rfl, rfl, fun r hr => mem_append_single_tools st _ r hr⟩
            · exact ⟨rfl, rfl, fun r hr => mem_append_single_tools st _ r hr⟩
          · simp only [if_neg ha]
            split
            · exact ⟨rfl, rfl, fun r hr => mem_append_single_tools st _ r hr⟩
            · exact ⟨rfl, rfl, fun r hr => mem_append_single_tools st _ r hr⟩

theorem forcedPhase_fallback (cfg : AgentLoopConfig) (script : Script) (st : LoopState)
    (hna : noAnswerReply (script st.callIdx) = true) (hfa : st.finalAnswer = none) :
    (forcedPhase cfg script st).finalAnswer =
      some (fallbackAnswer cfg.maxSteps st.gatheredEvidence) ∧
    (forcedPhase cfg script st).error =
      some ("Max steps (" ++ toString cfg.maxSteps ++ ") exceeded") ∧
    (forcedPhase cfg script st).verified = st.verified := by
  unfold forcedPhase
  simp only []
  cases hscr : script st.callIdx with
  | error e =>
    simp only [hscr]
    rw [if_pos hfa]
    exact ⟨rfl, rfl, rfl⟩
  | ok resp =>
    simp only [hscr]
    rw [hscr] at hna
    cases hat : resp.assistantText with
    | none =>
      simp only [hat]
      rw [if_pos hfa]
      exact ⟨rfl, rfl, rfl⟩
    | some t =>
      have ht : t = "" := by
        simp only [noAnswerReply, hat] at hna
        exact of_decide_eq_true hna
      simp only [hat, if_pos ht]
      rw [if_pos hfa]
      exact ⟨rfl, rfl, rfl⟩

theorem finalPhase_fields (cfg : AgentLoopConfig) (script : Script) (st : LoopState) :
    (finalPhase cfg script st).steps = st.steps ∧
    (finalPhase cfg script st).toolExecs = st.toolExecs ∧
    ∀ r ∈ (finalPhase cfg script st).requests,
      r ∈ st.requests ∨ r.tools = ([] : List String) := by
  unfold finalPhase
  simp only []
  split
  · split
    · exact (forcedPhase_fields cfg script st).imp_right
        (And.imp_right fun h r hr => h r hr)
    · exact ⟨rfl, rfl, fun r hr => Or.inl hr⟩
  · exact ⟨rfl, rfl, fun r hr => Or.inl hr⟩

theorem finalPhase_of_forced (cfg : AgentLoopConfig) (script : Script) (st : LoopState)
    (hv : st.verified = false) (he : st.error = none)
    (hcs : cfg.maxSteps ≤ st.currentStep) :
    finalPhase cfg script st =
      { answerMd := (forcedPhase cfg script st).finalAnswer.getD "No answer generated"
        steps := (forcedPhase cfg script st).steps
        sources := (forcedPhase cfg script st).verifiedSources
        verified := (forcedPhase cfg script st).verified
        error := (forcedPhase cfg script st).error
        requests := (forcedPhase cfg script st).requests
        toolExecs := (forcedPhase cfg script st).toolExecs } := by
  unfold finalPhase
  simp only []
  have hcond : (!st.verified && decide (st.error = none)) = true := by
    rw [hv, he]
    rfl
  rw [if_pos hcond, if_pos hcs]

theorem finalPhase_of_not_forced (cfg : AgentLoopConfig) (script : Script)
    (st : LoopState) (h : (!st.verified && decide (st.error = none)) = false) :
    finalPhase cfg script st =
      { answerMd := st.finalAnswer.getD "No answer generated"
        steps := st.steps
        sources := st.verifiedSources
        verified := st.verified
        error := st.error
        requests := st.requests
        toolExecs := st.toolExecs } := by
  unfold finalPhase
  simp only []
  rw [if_neg]
  intro hcon
  rw [h] at hcon
  cases hcon

theorem jsIncludes_fallback (maxSteps : Nat) (ev : List String) :
    jsIncludes (fallbackAnswer maxSteps ev)
      "## Sources\n\n(No verified sources available)" = true := by
  unfold jsIncludes fallbackAnswer
  rw [toList_append]
  exact listContains_append_right _ _ _ (by decide)

/-! ## C5 -/

/-- C5 counterexample: with `maxSteps = 1` a single LLM turn issuing
three tool invocations logs three step entries (one per invocation), so
`steps.length = 3 > maxSteps + 1 = 2`. -/
theorem steps_exceed_bound_cex :
    c5Config.maxSteps = 1 ∧
    (runAgent c5Config c5Script demoExec).steps.length = 3 ∧
    ¬((runAgent c5Config c5Script demoExec).steps.length ≤ c5Config.maxSteps + 1) := by
  refine ⟨rfl, by decide, by decide⟩

/-- C5 amended: `0 ≤ steps.length ≤ maxSteps + 1` holds provided every
provider turn carries at most one tool invocation (the loop appends one
step-log entry per executed tool invocation — a turn with k invocations
appends k — and the forced-termination turn appends none, so the bound
is in fact `maxSteps`). -/
theorem steps_length_bound_single_calls (cfg : AgentLoopConfig) (script : Script)
    (exec : ExecFn) (hs : ∀ i, numToolCalls (script i) ≤ 1) :
    0 ≤ (runAgent cfg script exec).steps.length ∧
    (runAgent cfg script exec).steps.length ≤ cfg.maxSteps + 1 := by
  refine ⟨Nat.zero_le _, ?_⟩
  unfold runAgent
  rw [(finalPhase_fields cfg script _).1]
  have h := loopGo_steps_bound cfg script exec hs cfg.maxSteps (initState cfg)
  have h0 : (initState cfg).steps.length = 0 := rfl
  omega

/-- C5 witness: a provider that always throws satisfies the one-call
bound. -/
theorem steps_length_bound_witness :
    0 ≤ (runAgent c9Config throwScript demoExec).steps.length ∧
    (runAgent c9Config throwScript demoExec).steps.length ≤ c9Config.maxSteps + 1 :=
  steps_length_bound_single_calls c9Config throwScript demoExec
    (fun i => by simp [numToolCalls, throwScript])

/-! ## C8 -/

/-- C8 counterexample: with `maxSteps = 2` and a provider that never
answers, the returned error is `"Max steps (2) exceeded"` — the budget is
interpolated — and not the claimed literal `"Max steps exceeded"`. -/
theorem max_steps_error_string_cex :
    (runAgent c8Config c8Script demoExec).verified = false ∧
    (runAgent c8Config c8Script demoExec).error = some "Max steps (2) exceeded" ∧
    (runAgent c8Config c8Script demoExec).error ≠ some "Max steps exceeded" ∧
    jsIncludes (runAgent c8Config c8Script demoExec).answerMd
      "## Sources\n\n(No verified sources available)" = true := by
  refine ⟨by decide, by decide, by decide, by decide⟩

/-- C8 amended: when the loop exhausts `maxSteps` without a verified
answer or error and the forced-termination call yields no answer text,
`runAgent` returns `verified = false`, the error string
`"Max steps (<maxSteps>) exceeded"`, and a fallback answer containing a
`## Sources` section with the literal `(No verified sources available)`
marker. -/
theorem forced_termination_fallback (cfg : AgentLoopConfig) (script : Script)
    (exec : ExecFn)
    (hv : (loopGo cfg script exec cfg.maxSteps (initState cfg)).verified = false)
    (he : (loopGo cfg script exec cfg.maxSteps (initState cfg)).error = none)
    (hna : noAnswerReply
      (script (loopGo cfg script exec cfg.maxSteps (initState cfg)).callIdx) = true) :
    (runAgent cfg script exec).verified = false ∧
    (runAgent cfg script exec).error =
      some ("Max steps (" ++ toString cfg.maxSteps ++ ") exceeded") ∧
    jsIncludes (runAgent cfg script exec).answerMd
      "## Sources\n\n(No verified sources available)" = true := by
  have hcs : cfg.maxSteps ≤
      (loopGo cfg script exec cfg.maxSteps (initState cfg)).currentStep := by
    have h := loopGo_currentStep cfg script exec cfg.maxSteps (initState cfg) hv he
    have h0 : (initState cfg).currentStep = 0 := rfl
    rw [h0] at h
    omega
  have hfa : (loopGo cfg script exec cfg.maxSteps (initState cfg)).finalAnswer = none := by
    rw [loopGo_finalAnswer cfg script exec cfg.maxSteps (initState cfg) hv]
    rfl
  rcases forcedPhase_fallback cfg script
    (loopGo cfg script exec cfg.maxSteps (initState cfg)) hna hfa with ⟨hf1, hf2, hf3⟩
  unfold runAgent
  rw [finalPhase_of_forced cfg script _ hv he hcs]
  refine ⟨hf3.trans hv, hf2, ?_⟩
  have h3 : jsIncludes
      ((forcedPhase cfg script (loopGo cfg script exec cfg.maxSteps
        (initState cfg))).finalAnswer.getD "No answer generated")
      "## Sources\n\n(No verified sources available)" = true := by
    rw [hf1]
    exact jsIncludes_fallback cfg.maxSteps _
  exact h3

/-- C8 witness for the amended statement at the counterexample script. -/
theorem forced_termination_fallback_witness :
    (runAgent c8Config c8Script demoExec).verified = false ∧
    (runAgent c8Config c8Script demoExec).error =
      some ("Max steps (" ++ toString c8Config.maxSteps ++ ") exceeded") ∧
    jsIncludes (runAgent c8Config c8Script demoExec).answerMd
      "## Sources\n\n(No verified sources available)" = true :=
  forced_termination_fallback c8Config c8Script demoExec (by decide) (by decide)
    (by decide)

/-! ## C9 -/

/-- C9 counterexample: a reply with plain text and no tool calls is not
logged as an unexpected-content step with the loop continuing — the run
terminates immediately with the parse error, no step entry, and only one
provider call ever issued (out of a budget of 3). -/
theorem neither_response_stops_cex :
    (runAgent c9Config c9Script demoExec).error =
      some "LLM response was neither a tool call nor a valid DONE answer" ∧
    (runAgent c9Config c9Script demoExec).steps = [] ∧
    (runAgent c9Config c9Script demoExec).requests.length = 1 ∧
    (runAgent c9Config c9Script demoExec).verified = false := by
  refine ⟨by decide, by decide, by decide, by decide⟩

/-- C9 amended: when the first LLM response contains neither tool
invocations nor a DONE answer (no `DONE` prefix match and no
`## Sources`-with-backtick fallback), `runAgent` sets the error
`"LLM response was neither a tool call nor a valid DONE answer"` and
terminates the loop without recording a step for that response. -/
theorem neither_response_sets_error (cfg : AgentLoopConfig) (script : Script)
    (exec : ExecFn) (t : String)
    (hms : 0 < cfg.maxSteps)
    (h0 : script 0 = .ok { assistantText := some t, toolCalls := none })
    (ht : ¬(t = ""))
    (hdone : doneCapture t = none)
    (hsrc : (jsIncludes t "## Sources" && jsIncludes t "`") = false) :
    (runAgent cfg script exec).error =
      some "LLM response was neither a tool call nor a valid DONE answer" ∧
    (runAgent cfg script exec).verified = false ∧
    (runAgent cfg script exec).steps = [] := by
  have hparse : parseResponse (some t) none =
      { type := .errorT, rawContent := some t
        error := some "LLM response was neither a tool call nor a valid DONE answer" } := by
    unfold parseResponse parseContentPart
    simp only [if_neg ht, hdone]
    rw [if_neg]
    intro hcon
    rw [hsrc] at hcon
    cases hcon
  have hiter : loopIter cfg script exec (initState cfg) =
      { (initState cfg) with
        currentStep := 1, callIdx := 1
        requests := (initState cfg).requests ++
          [{ messages := (initState cfg).messages, tools := loopToolNames }]
        error := some "LLM response was neither a tool call nor a valid DONE answer" } := by
    unfold loopIter
    rw [show (initState cfg).callIdx = 0 from rfl, h0]
    simp only []
    rw [show (parseResponse (some t) none : ParsedLLMResponse) =
      { type := .errorT, rawContent := some t
        error := some "LLM response was neither a tool call nor a valid DONE answer" }
      from hparse]
    unfold handleParsed
    rw [if_pos rfl]
    rfl
  obtain ⟨n, hn⟩ : ∃ n, cfg.maxSteps = n + 1 := ⟨cfg.maxSteps - 1, by omega⟩
  have hcs0 : (initState cfg).currentStep < cfg.maxSteps := hms
  have hnb : (((initState cfg).verified || (initState cfg).error.isSome) = true) → False := by
    intro hcon
    cases hcon
  have hgo : loopGo cfg script exec cfg.maxSteps (initState cfg) =
      loopIter cfg script exec (initState cfg) := by
    conv_lhs => rw [hn]
    rw [show loopGo cfg script exec (n + 1) (initState cfg) =
      (if ((initState cfg).verified || (initState cfg).error.isSome) = true then
        initState cfg
       else if (initState cfg).currentStep < cfg.maxSteps then
         loopGo cfg script exec n (loopIter cfg script exec (initState cfg))
       else initState cfg) from rfl]
    rw [if_neg hnb, if_pos hcs0]
    refine loopGo_of_broken cfg script exec n _ ?_
    rw [hiter]
    rfl
  have hres : runAgent cfg script exec =
      { answerMd := (loopIter cfg script exec (initState cfg)).finalAnswer.getD
          "No answer generated"
        steps := (loopIter cfg script exec (initState cfg)).steps
        sources := (loopIter cfg script exec (initState cfg)).verifiedSources
        verified := (loopIter cfg script exec (initState cfg)).verified
        error := (loopIter cfg script exec (initState cfg)).error
        requests := (loopIter cfg script exec (initState cfg)).requests
        toolExecs := (loopIter cfg script exec (initState cfg)).toolExecs } := by
    unfold runAgent
    rw [hgo]
    refine finalPhase_of_not_forced cfg script _ ?_
    rw [hiter]
    rfl
  rw [hres, hiter]
  exact ⟨rfl, rfl, rfl⟩

/-- C9 witness for the amended statement with the reply text `hello`. -/
theorem neither_response_witness :
    (runAgent c9Config c9Script demoExec).error =
      some "LLM response was neither a tool call nor a valid DONE answer" ∧
    (runAgent c9Config c9Script demoExec).verified = false ∧
    (runAgent c9Config c9Script demoExec).steps = [] :=
  neither_response_sets_error c9Config c9Script demoExec "hello" (by decide) rfl
    (by decide) (by decide) (by decide)

/-! ## C10 -/

/-- C10: tool invocations are executed only inside the bounded loop —
every recorded execution carries a step number `≤ maxSteps`, the
post-loop phase executes none (the trace is unchanged by it), and any
`chat` request issued after the loop (the forced-termination call)
carries an empty tool list. -/
theorem forced_call_has_no_tools (cfg : AgentLoopConfig) (script : Script)
    (exec : ExecFn) :
    (runAgent cfg script exec).toolExecs =
      (loopGo cfg script exec cfg.maxSteps (initState cfg)).toolExecs ∧
    (∀ e ∈ (runAgent cfg script exec).toolExecs, e.stepNo ≤ cfg.maxSteps) ∧
    (∀ r ∈ (runAgent cfg script exec).requests,
      r ∉ (loopGo cfg script exec cfg.maxSteps (initState cfg)).requests →
      r.tools = ([] : List String)) := by
  have hff := finalPhase_fields cfg script (loopGo cfg script exec cfg.maxSteps
    (initState cfg))
  refine ⟨hff.2.1, ?_, ?_⟩
  · intro e he
    rw [show (runAgent cfg script exec).toolExecs =
      (finalPhase cfg script (loopGo cfg script exec cfg.maxSteps
        (initState cfg))).toolExecs from rfl, hff.2.1] at he
    refine loopGo_toolExecs cfg script exec cfg.maxSteps (initState cfg) ?_ e he
    intro e' he'
    cases he'
  · intro r hr hnot
    rcases hff.2.2 r hr with hmem | htools
    · exact absurd hmem hnot
    · exact htools

/-- C10 witness: in a one-step run with one tool invocation, the recorded
execution happened at step 1 ≤ maxSteps. -/
theorem forced_call_witness :
    (⟨1, "get_excerpt", "{}"⟩ : ToolExec).stepNo ≤ c10Config.maxSteps :=
  (forced_call_has_no_tools c10Config c10Script demoExec).2.1
    ⟨1, "get_excerpt", "{}"⟩ (by decide)
